import Mathlib

/-!
Verification development for the `try-catch` library.

The development shallowly embeds the two algorithmic cores of the library:

* the breadcrumb extraction engine (`src/utils/breadcrumbs.ts` together with
  the transformer registry of `src/utils/transformers.ts`), and
* the execution/caching state machine of the `Try` class
  (`src/core/Try.ts`), with the reporter modelled as an event trace.

JavaScript values are modelled by the inductive type `JSVal`; a thrown
transformer is modelled by `Option` (`none` = throw); JS objects are
association lists with JS assignment/spread semantics (`recSet`, `recMerge`).
-/

namespace TryCatch

/-- JavaScript runtime values, restricted to the data fragment the library
manipulates.  `obj` carries the own enumerable properties in insertion order
(unique keys in any value produced by real JS code); `arr` is a JS array. -/
inductive JSVal where
  | undefined
  | null
  | bool (b : Bool)
  | num (n : Int)
  | str (s : String)
  | obj (fields : List (String × JSVal))
  | arr (elems : List JSVal)

/-- A breadcrumb context / partial context: a JS object mapping string keys
to values (`Record<string, unknown>` in the source). -/
abbrev Ctx := List (String × JSVal)

/-- A tag map (`Record<string, string>` in the source). -/
abbrev TagMap := List (String × String)

/-- JS property assignment `r[k] = v` (also a single step of object spread):
if the key is present its value is updated in place, otherwise the pair is
appended. -/
def recSet {α : Type} : List (String × α) → String → α → List (String × α)
  | [], k, v => [(k, v)]
  | (k', v') :: rest, k, v =>
    if k' = k then (k, v) :: rest else (k', v') :: recSet rest k v

/-- JS object spread `{...a, ...b}`: the pairs of `b` are assigned into `a`
in order, later keys overwriting earlier ones. -/
def recMerge {α : Type} (a b : List (String × α)) : List (String × α) :=
  b.foldl (fun acc p => recSet acc p.1 p.2) a

/-- Truthiness test `v && typeof v === 'object'` used throughout the
extractor: `null` has typeof `'object'` but is falsy; arrays pass. -/
def isTruthyObject : JSVal → Bool
  | .obj _ => true
  | .arr _ => true
  | _ => false

/-- Whether a value is JS `undefined`. -/
def isUndefined : JSVal → Bool
  | .undefined => true
  | _ => false

/-- JS property read `v[k]`: a missing key (or a non-object receiver, for the
plain-data values modelled here) reads as `undefined`. -/
def getProp (v : JSVal) (k : String) : JSVal :=
  match v with
  | .obj fields => (fields.lookup k).getD .undefined
  | _ => .undefined

/-- JS array index read `args[i]`: out-of-range reads give `undefined`. -/
def argAt (args : List JSVal) (i : Nat) : JSVal :=
  (args.get? i).getD .undefined

/-- Array index read for a (possibly negative) JS number index. -/
def argAtI (args : List JSVal) (i : Int) : JSVal :=
  if i < 0 then .undefined else argAt args i.toNat

/-- The `typeof` operator on the modelled fragment. -/
def jsTypeof : JSVal → String
  | .undefined => "undefined"
  | .null => "object"
  | .bool _ => "boolean"
  | .num _ => "number"
  | .str _ => "string"
  | .obj _ => "object"
  | .arr _ => "object"

mutual

/-- JS `String(v)` conversion on the modelled (plain-data) fragment. -/
def jsToString : JSVal → String
  | .undefined => "undefined"
  | .null => "null"
  | .bool b => if b then "true" else "false"
  | .num n => toString n
  | .str s => s
  | .obj _ => "[object Object]"
  | .arr elems => jsToStringList elems

/-- Array `toString`: elements joined by commas. -/
def jsToStringList : List JSVal → String
  | [] => ""
  | [v] => jsToStringElem v
  | v :: vs => jsToStringElem v ++ "," ++ jsToStringList vs

/-- Element conversion inside `Array.prototype.toString`: `null` and
`undefined` become the empty string. -/
def jsToStringElem : JSVal → String
  | .undefined => ""
  | .null => ""
  | v => jsToString v

end

/-- A custom breadcrumb transformer (`BreadcrumbTransformer` in the source):
it receives one argument value and either returns a partial context or
throws; a throw is modelled as `none`. -/
def Transformer : Type := JSVal → Option Ctx

/-- The four predefined transformer kinds accepted in `{param, as}`
extractors. -/
inductive PredefKind where
  | length
  | type
  | value
  | toStr

/-- Key `param<N>` used by the predefined transformers. -/
def paramKey (paramIndex : Int) : String :=
  "param" ++ toString paramIndex

namespace PredefinedTransformers

/-- PredefinedTransformers.length: element/character count of strings and
arrays, own-key count of (truthy) objects, nothing otherwise. -/
def length (value : JSVal) (paramIndex : Int) : Ctx :=
  match value with
  | .str s => [(paramKey paramIndex ++ "_length", .num s.length)]
  | .arr l => [(paramKey paramIndex ++ "_length", .num l.length)]
  | .obj fields => [(paramKey paramIndex ++ "_length", .num fields.length)]
  | _ => []

/-- PredefinedTransformers.type: the `typeof` of the value. -/
def type (value : JSVal) (paramIndex : Int) : Ctx :=
  [(paramKey paramIndex ++ "_type", .str (jsTypeof value))]

/-- PredefinedTransformers.value: the raw value. -/
def value (v : JSVal) (paramIndex : Int) : Ctx :=
  [(paramKey paramIndex ++ "_value", v)]

/-- PredefinedTransformers.toString: the `String(...)` conversion. -/
def toStr (v : JSVal) (paramIndex : Int) : Ctx :=
  [(paramKey paramIndex ++ "_string", .str (jsToString v))]

end PredefinedTransformers

namespace TransformerRegistry

/-- TransformerRegistry.apply: invoke a custom transformer; a throw is caught
and contained to an empty context (the `debug` flag only controls console
logging, which has no modelled effect). -/
def apply (t : Transformer) (v : JSVal) (debug : Bool) : Ctx :=
  (t v).getD []

/-- TransformerRegistry.applyPredefined: look up and invoke one of the four
predefined transformers (all total on the modelled plain-data values, so the
source's catch block is unreachable here). -/
def applyPredefined (kind : PredefKind) (v : JSVal) (paramIndex : Int)
    (debug : Bool) : Ctx :=
  match kind with
  | .length => PredefinedTransformers.length v paramIndex
  | .type => PredefinedTransformers.type v paramIndex
  | .value => PredefinedTransformers.value v paramIndex
  | .toStr => PredefinedTransformers.toStr v paramIndex

/-- TransformerRegistry.validateParameterIndex: valid iff
`0 ≤ paramIndex < argsLength`. -/
def validateParameterIndex (paramIndex : Int) (argsLength : Nat) : Bool :=
  0 ≤ paramIndex && paramIndex < (argsLength : Int)

end TransformerRegistry

/-- An extractor object `{param, keys} | {param, transform} | {param, as}`.
The source dispatches by `'keys' in e`, `'transform' in e`, `'as' in e`;
the discriminated constructors capture that. -/
inductive Extractor where
  | keys (param : Int) (keys : List String)
  | transform (param : Int) (t : Transformer)
  | asKind (param : Int) (kind : PredefKind)

/-- One entry of an array-shaped breadcrumb config, following the union
accepted by the source (`string | readonly string[] | transformer function |
BreadcrumbExtractor`).  The constructors correspond exactly to the runtime
type tests used for classification (`typeof el === 'string'`,
`Array.isArray(el)`, `typeof el === 'function'`, plain object). -/
inductive ConfigEntry where
  | str (s : String)
  | strList (keys : List String)
  | fn (t : Transformer)
  | extractor (e : Extractor)

/-- The `param` field of an extractor object. -/
def Extractor.param : Extractor → Int
  | .keys p _ => p
  | .transform p _ => p
  | .asKind p _ => p

/-- A value of the index-keyed map config: either a key list or a
transformer function. -/
inductive ObjMapVal where
  | keysList (keys : List String)
  | transform (t : Transformer)

/-- A breadcrumb configuration (`BreadcrumbOptions` in the source): either an
array (classified further at extraction time) or a plain object whose keys
are parameter indices.  The list of an `objMap` is the `Object.entries`
enumeration of the JS object, keys already parsed to integers. -/
inductive BreadcrumbOptions where
  | arr (entries : List ConfigEntry)
  | objMap (entries : List (Int × ObjMapVal))

/-- BreadcrumbExtractorUtil.isStringArray: a *nonempty* array whose entries
are all strings (`Array.isArray(config) && config.length > 0 &&
config.every(el => typeof el === 'string')`). -/
def isStringArray (entries : List ConfigEntry) : Bool :=
  decide (entries.length > 0) &&
    entries.all fun e => match e with | .str _ => true | _ => false

/-- BreadcrumbExtractorUtil.isTransformerArray: a *nonempty* array whose
entries are all functions. -/
def isTransformerArray (entries : List ConfigEntry) : Bool :=
  decide (entries.length > 0) &&
    entries.all fun e => match e with | .fn _ => true | _ => false

/-- View of an all-string array as its list of keys. -/
def stringKeys (entries : List ConfigEntry) : List String :=
  entries.filterMap fun e => match e with | .str s => some s | _ => none

/-- BreadcrumbExtractorUtil.extractFromKeys: copy each listed key whose value
is not `undefined` from the object into a fresh context. -/
def extractFromKeys (obj : JSVal) (keys : List String) : Ctx :=
  keys.foldl
    (fun bd k =>
      let v := getProp obj k
      if isUndefined v then bd else recSet bd k v)
    []

/-- BreadcrumbExtractorUtil.extractFromParameter: dispatch one extractor
object; an out-of-range `param` contributes nothing. -/
def extractFromParameter (ex : Extractor) (args : List JSVal) (debug : Bool) :
    Ctx :=
  if !TransformerRegistry.validateParameterIndex ex.param args.length then []
  else
    let paramValue := argAtI args ex.param
    match ex with
    | .keys _ ks =>
      if isTruthyObject paramValue then extractFromKeys paramValue ks else []
    | .transform _ t => TransformerRegistry.apply t paramValue debug
    | .asKind _ kind =>
      TransformerRegistry.applyPredefined kind paramValue ex.param debug

/-- One step of `extractFromArray`'s `forEach` body, at entry index `i` with
accumulator `bd`.  A bare function entry in a mixed array matches none of the
source's branches (its `typeof` is `'function'`, not `'object'`/`'string'`,
and it is not an array) and contributes nothing. -/
def arrayEntryStep (args : List JSVal) (debug : Bool) (i : Nat) (bd : Ctx) :
    ConfigEntry → Ctx
  | .extractor e => recMerge bd (extractFromParameter e args debug)
  | .str s => recSet bd s (argAt args i)
  | .strList ks =>
    let a := argAt args i
    if isTruthyObject a then recMerge bd (extractFromKeys a ks) else bd
  | .fn _ => bd

/-- The indexed `forEach` loop of BreadcrumbExtractorUtil.extractFromArray. -/
def extractFromArrayGo (args : List JSVal) (debug : Bool) (i : Nat) (bd : Ctx) :
    List ConfigEntry → Ctx
  | [] => bd
  | entry :: rest =>
    extractFromArrayGo args debug (i + 1) (arrayEntryStep args debug i bd entry)
      rest

/-- BreadcrumbExtractorUtil.extractFromArray: positional entries map to the
argument at the same index; extractor entries carry their own index. -/
def extractFromArray (entries : List ConfigEntry) (args : List JSVal)
    (debug : Bool) : Ctx :=
  extractFromArrayGo args debug 0 [] entries

/-- One step of the variadic-transformer `forEach` body of `extract`: the
transformer at index `i` is applied to `args[i]` only when
`i < args.length`.  (Under the all-function guard every entry is `fn`.) -/
def variadicEntryStep (args : List JSVal) (debug : Bool) (i : Nat) (bd : Ctx) :
    ConfigEntry → Ctx
  | .fn t =>
    if i < args.length then
      recMerge bd (TransformerRegistry.apply t (argAt args i) debug)
    else bd
  | _ => bd

/-- The indexed `forEach` loop of the variadic-transformer branch of
`extract`. -/
def variadicGo (args : List JSVal) (debug : Bool) (i : Nat) (bd : Ctx) :
    List ConfigEntry → Ctx
  | [] => bd
  | entry :: rest =>
    variadicGo args debug (i + 1) (variadicEntryStep args debug i bd entry) rest

/-- BreadcrumbExtractorUtil.extractFromParameterConfig: dispatch one value of
the index-keyed map (key list or transformer) against `args[index]`. -/
def extractFromParameterConfig (index : Int) (cfg : ObjMapVal)
    (args : List JSVal) (debug : Bool) : Ctx :=
  let paramValue := argAtI args index
  match cfg with
  | .keysList ks =>
    if isTruthyObject paramValue then extractFromKeys paramValue ks else []
  | .transform t => TransformerRegistry.apply t paramValue debug

/-- The loop of BreadcrumbExtractorUtil.extractFromObject: each entry's key
is a parameter index, validated before dispatch. -/
def extractFromObjectGo (args : List JSVal) (debug : Bool) (bd : Ctx) :
    List (Int × ObjMapVal) → Ctx
  | [] => bd
  | (idx, cfg) :: rest =>
    let bd' :=
      if TransformerRegistry.validateParameterIndex idx args.length then
        recMerge bd (extractFromParameterConfig idx cfg args debug)
      else bd
    extractFromObjectGo args debug bd' rest

/-- BreadcrumbExtractorUtil.extractFromObject. -/
def extractFromObject (entries : List (Int × ObjMapVal)) (args : List JSVal)
    (debug : Bool) : Ctx :=
  extractFromObjectGo args debug [] entries

/-- The four shapes the disambiguation of `extract` can choose, in the
source's test order. -/
inductive Shape where
  | keyList
  | variadicTransformers
  | posArray
  | indexMap
deriving DecidableEq

/-- The classification performed by the `if`/`else if` chain of
BreadcrumbExtractorUtil.extract: all-string array → key list; all-function
array → variadic transformers; any other array → positional/extractor array;
plain object → index-keyed map. -/
def classify : BreadcrumbOptions → Shape
  | .arr entries =>
    if isStringArray entries then .keyList
    else if isTransformerArray entries then .variadicTransformers
    else .posArray
  | .objMap _ => .indexMap

/-- BreadcrumbExtractorUtil.extract: classify the configuration and produce
the flat breadcrumb context from the call arguments. -/
def extract (config : BreadcrumbOptions) (args : List JSVal) (debug : Bool) :
    Ctx :=
  match config with
  | .arr entries =>
    if isStringArray entries then
      let firstArg := argAt args 0
      if isTruthyObject firstArg then
        extractFromKeys firstArg (stringKeys entries)
      else []
    else if isTransformerArray entries then
      variadicGo args debug 0 [] entries
    else
      extractFromArray entries args debug
  | .objMap entries => extractFromObject entries args debug

/-! ### Per-entry partial contexts

`extractParts` records the partial context each configuration entry
contributes, in traversal order; `extract` is the left fold of `recMerge`
over these parts (proved below).  This derived view is used to state
partial-failure isolation. -/

/-- The partial context one entry of a positional/extractor array
contributes (the merge-argument of `arrayEntryStep`). -/
def arrayEntryPart (args : List JSVal) (debug : Bool) (i : Nat) :
    ConfigEntry → Ctx
  | .extractor e => extractFromParameter e args debug
  | .str s => [(s, argAt args i)]
  | .strList ks =>
    let a := argAt args i
    if isTruthyObject a then extractFromKeys a ks else []
  | .fn _ => []

/-- Per-entry partials of the positional/extractor array traversal. -/
def arrayPartsGo (args : List JSVal) (debug : Bool) (i : Nat) :
    List ConfigEntry → List Ctx
  | [] => []
  | entry :: rest =>
    arrayEntryPart args debug i entry :: arrayPartsGo args debug (i + 1) rest

/-- The partial context one entry of the variadic-transformer traversal
contributes. -/
def variadicEntryPart (args : List JSVal) (debug : Bool) (i : Nat) :
    ConfigEntry → Ctx
  | .fn t =>
    if i < args.length then TransformerRegistry.apply t (argAt args i) debug
    else []
  | _ => []

/-- Per-entry partials of the variadic-transformer traversal. -/
def variadicPartsGo (args : List JSVal) (debug : Bool) (i : Nat) :
    List ConfigEntry → List Ctx
  | [] => []
  | entry :: rest =>
    variadicEntryPart args debug i entry ::
      variadicPartsGo args debug (i + 1) rest

/-- Per-entry partials of the index-keyed map traversal. -/
def objMapPart (args : List JSVal) (debug : Bool) (p : Int × ObjMapVal) :
    Ctx :=
  if TransformerRegistry.validateParameterIndex p.1 args.length then
    extractFromParameterConfig p.1 p.2 args debug
  else []

/-- The list of partial contexts `extract` merges, one per configuration
entry (a single part for the key-list shape). -/
def extractParts (config : BreadcrumbOptions) (args : List JSVal)
    (debug : Bool) : List Ctx :=
  match config with
  | .arr entries =>
    if isStringArray entries then
      let firstArg := argAt args 0
      if isTruthyObject firstArg then
        [extractFromKeys firstArg (stringKeys entries)]
      else []
    else if isTransformerArray entries then
      variadicPartsGo args debug 0 entries
    else
      arrayPartsGo args debug 0 entries
  | .objMap entries => entries.map (objMapPart args debug)

/-- Merging a list of partial contexts into an accumulator, in order. -/
def mergeAll (parts : List Ctx) : Ctx :=
  parts.foldl recMerge []

/-! ### The `Try` execution/caching state machine (`src/core/Try.ts`)

One `Try` instance wraps a deterministic callable outcome (`fnOutcome`: what
the callable returns or throws when invoked), its bound arguments and the
fluent configuration.  Reporter side effects (`report`, `addBreadcrumbs`),
callable invocations and transformer invocations are recorded in an event
trace.  The process-wide static state (`Try.ignoreErrorTypes` and the default
reporter's `createWrappedError`) is an explicit environment. -/

/-- A JS `Error` value: `name`, `message`, `stack` and the optional
`cause` chain. -/
inductive JSError where
  | mk (name : String) (message : String) (stack : String)
      (cause : Option JSError)

/-- The `name` of an error. -/
def JSError.name : JSError → String
  | .mk n _ _ _ => n

/-- The `message` of an error. -/
def JSError.message : JSError → String
  | .mk _ m _ _ => m

/-- The `stack` of an error. -/
def JSError.stack : JSError → String
  | .mk _ _ st _ => st

/-- The `cause` of an error. -/
def JSError.cause : JSError → Option JSError
  | .mk _ _ _ c => c

/-- TryResult: the discriminated union `{success:true, value} |
{success:false, error}`. -/
inductive TryResult where
  | success (value : JSVal)
  | failure (error : JSError)

/-- The `ErrorReportConfig` record passed to `Reporter.report`. -/
structure ErrorReportConfig where
  message : Option String
  tags : TagMap
  breadcrumbData : Option Ctx
  functionName : String

/-- Events recorded by a run: callable invocation, finally-callback
invocation, one event per transformer invocation during breadcrumb
computation, `Reporter.addBreadcrumbs` calls and `Reporter.report` calls. -/
inductive Event where
  | callFn
  | finallyCall
  | applyTransformerCall
  | addBreadcrumbsCall (data : Ctx) (functionName : String)
  | reportCall (error : JSError) (config : ErrorReportConfig)

/-- The `'pending' | 'executed'` state field. -/
inductive ExecState where
  | pending
  | executed
deriving DecidableEq

/-- The full instance state of a `Try` object: the callable (modelled by its
deterministic outcome and its `name`), the bound arguments, the
configuration record, and the runtime caching fields. -/
structure TryState where
  fnOutcome : Except JSError JSVal
  fnName : String
  args : List JSVal
  message : Option String
  breadcrumbConfig : Option BreadcrumbOptions
  tags : TagMap
  defaultValue : Option JSVal
  hasFinally : Bool
  debugFlag : Bool
  cachedResult : Option TryResult
  cachedBreadcrumbData : Option Ctx
  breadcrumbsAdded : Bool
  execState : ExecState

/-- The process-wide static environment: the throw-through allow-list
(`Try.ignoreErrorTypes`) and the default reporter's wrapped-error
constructor. -/
structure Env where
  ignoreErrorTypes : List String
  createWrappedError : JSError → String → JSError

/-- NoopReporter.createWrappedError: a fresh `Error` with the custom message,
`cause` set to the original error and `stack` copied from it. -/
def noopCreateWrappedError (error : JSError) (message : String) : JSError :=
  .mk "Error" message error.stack (some error)

/-- Truthiness of `this.config.message` (an unset message and the empty
string are both falsy in JS). -/
def msgTruthy : Option String → Bool
  | some m => !(m == "")
  | none => false

/-- JS nullish coalescing `defaultValue ?? undefined` as used by `value()`:
an unset (`undefined`) or `null` default yields `undefined`. -/
def jsNullish : Option JSVal → JSVal
  | none => .undefined
  | some .null => .undefined
  | some .undefined => .undefined
  | some v => v

/-- The number of transformer invocations (`TransformerRegistry.apply` or
`applyPredefined`) one run of `extract` performs, mirroring the call sites
branch by branch. -/
def transformerCallCount (config : BreadcrumbOptions) (args : List JSVal) :
    Nat :=
  match config with
  | .arr entries =>
    if isStringArray entries then 0
    else if isTransformerArray entries then
      (entries.enum.filter fun ie => decide (ie.1 < args.length)).length
    else
      entries.countP fun e =>
        match e with
        | .extractor ex =>
          match ex with
          | .keys _ _ => false
          | .transform _ _ =>
            TransformerRegistry.validateParameterIndex ex.param args.length
          | .asKind _ _ =>
            TransformerRegistry.validateParameterIndex ex.param args.length
        | _ => false
  | .objMap entries =>
    entries.countP fun p =>
      match p.2 with
      | .keysList _ => false
      | .transform _ =>
        TransformerRegistry.validateParameterIndex p.1 args.length

/-- Try.execute: return the cached result when already executed, otherwise
invoke the callable once, cache the outcome, flip the state to `executed` and
run the finally callback (whose own failure is contained). -/
def executeOp (s : TryState) : TryState × List Event × TryResult :=
  match s.execState, s.cachedResult with
  | .executed, some r => (s, [], r)
  | _, _ =>
    let r :=
      match s.fnOutcome with
      | .ok v => TryResult.success v
      | .error e => TryResult.failure e
    ({ s with cachedResult := some r, execState := .executed },
     Event.callFn :: (if s.hasFinally then [Event.finallyCall] else []),
     r)

/-- Try.addBreadcrumbsIfConfigured: no-op without a breadcrumb config or
after breadcrumbs were already added; otherwise compute the context once
(caching it), emit it through the reporter and set the guard. -/
def addBreadcrumbsIfConfigured (s : TryState) : TryState × List Event :=
  match s.breadcrumbConfig with
  | none => (s, [])
  | some cfg =>
    if s.breadcrumbsAdded then (s, [])
    else
      let computed :=
        match s.cachedBreadcrumbData with
        | some data => (data, ([] : List Event))
        | none =>
          (extract cfg s.args s.debugFlag,
           List.replicate (transformerCallCount cfg s.args)
             Event.applyTransformerCall)
      let functionName := if s.fnName == "" then "anonymous" else s.fnName
      ({ s with cachedBreadcrumbData := some computed.1,
                breadcrumbsAdded := true },
       computed.2 ++ [Event.addBreadcrumbsCall computed.1 functionName])

/-- Try.reportError: add breadcrumbs if configured, then call
`Reporter.report` with the error, the configured message, the instance's
tags, the cached breadcrumb data and the callable's (raw) name. -/
def reportError (s : TryState) (error : JSError) : TryState × List Event :=
  let step := addBreadcrumbsIfConfigured s
  (step.1,
   step.2 ++
     [Event.reportCall error
       ⟨step.1.message, step.1.tags, step.1.cachedBreadcrumbData,
        step.1.fnName⟩])

/-- Try.unwrap: execute; on success return the value.  On failure report
when a message is configured, then throw the reporter-wrapped error when a
message is configured and the error's name is not in the allow-list,
otherwise rethrow the original error. -/
def unwrapOp (env : Env) (s : TryState) :
    TryState × List Event × Except JSError JSVal :=
  let e1 := executeOp s
  match e1.2.2 with
  | .success v => (e1.1, e1.2.1, .ok v)
  | .failure error =>
    let step :=
      if msgTruthy e1.1.message then reportError e1.1 error else (e1.1, [])
    if msgTruthy step.1.message && !(env.ignoreErrorTypes.contains error.name)
    then
      (step.1, e1.2.1 ++ step.2,
       .error (env.createWrappedError error (step.1.message.getD "")))
    else (step.1, e1.2.1 ++ step.2, .error error)

/-- Try.value: execute; on success return the value.  On failure report when
a message is configured (else only emit breadcrumbs when configured), then
return `defaultValue ?? undefined`. -/
def valueOp (s : TryState) : TryState × List Event × JSVal :=
  let e1 := executeOp s
  match e1.2.2 with
  | .success v => (e1.1, e1.2.1, v)
  | .failure error =>
    let step :=
      if msgTruthy e1.1.message then reportError e1.1 error
      else
        match e1.1.breadcrumbConfig with
        | some _ => addBreadcrumbsIfConfigured e1.1
        | none => (e1.1, [])
    (step.1, e1.2.1 ++ step.2, jsNullish step.1.defaultValue)

/-- Try.error: execute and return the error as a value (`undefined` on
success); never reports. -/
def errorOp (s : TryState) : TryState × List Event × Option JSError :=
  let e1 := executeOp s
  (e1.1, e1.2.1,
   match e1.2.2 with
   | .success _ => none
   | .failure e => some e)

/-- Try.result: execute and return the discriminated result object; never
reports. -/
def resultOp (s : TryState) : TryState × List Event × TryResult :=
  let e1 := executeOp s
  (e1.1, e1.2.1, e1.2.2)

/-- Try.then (thenable behaviour): `this.value().then(onfulfilled,
onrejected)`.  The body of `value()` contains no throw (call failure is
caught by `execute`, transformer failure is contained by the registry, and
the reporter is trusted not to throw), so the promise it returns always
resolves and `onfulfilled` receives its value; `onrejected` is never
invoked. -/
def thenOp {α : Type} (s : TryState) (onfulfilled : JSVal → α)
    (onrejected : JSError → α) : TryState × List Event × α :=
  let v := valueOp s
  (v.1, v.2.1, onfulfilled v.2.2)

/-! ### Instances, fluent configuration and operation sequences -/

/-- The constructor-time data of an instance together with its fluent
configuration (everything chosen before the first terminal operation). -/
structure TrySetup where
  fnOutcome : Except JSError JSVal
  fnName : String
  args : List JSVal
  message : Option String
  breadcrumbConfig : Option BreadcrumbOptions
  tags : TagMap
  defaultValue : Option JSVal
  hasFinally : Bool
  debugFlag : Bool

/-- The fresh instance state for a setup: runtime caching fields at their
constructor values (`state = 'pending'`, nothing cached). -/
def TrySetup.toState (c : TrySetup) : TryState :=
  { fnOutcome := c.fnOutcome, fnName := c.fnName, args := c.args,
    message := c.message, breadcrumbConfig := c.breadcrumbConfig,
    tags := c.tags, defaultValue := c.defaultValue,
    hasFinally := c.hasFinally, debugFlag := c.debugFlag,
    cachedResult := none, cachedBreadcrumbData := none,
    breadcrumbsAdded := false, execState := .pending }

/-- The five terminal operations of an instance. -/
inductive TermOp where
  | unwrap
  | value
  | error
  | result
  | thenAwait
deriving DecidableEq

/-- What one terminal operation hands back to the caller. -/
inductive Observation where
  | unwrapped (r : Except JSError JSVal)
  | valued (v : JSVal)
  | errored (e : Option JSError)
  | resulted (r : TryResult)

/-- Run one terminal operation (implicit `await` runs the thenable, which
delegates to `value()`). -/
def runOp (env : Env) (s : TryState) : TermOp → TryState × List Event × Observation
  | .unwrap =>
    let r := unwrapOp env s
    (r.1, r.2.1, .unwrapped r.2.2)
  | .value =>
    let r := valueOp s
    (r.1, r.2.1, .valued r.2.2)
  | .error =>
    let r := errorOp s
    (r.1, r.2.1, .errored r.2.2)
  | .result =>
    let r := resultOp s
    (r.1, r.2.1, .resulted r.2.2)
  | .thenAwait =>
    let r := thenOp s (fun v => v) (fun _ => JSVal.undefined)
    (r.1, r.2.1, .valued r.2.2)

/-- Run a sequence of terminal operations, concatenating the event traces
and collecting the observations in order. -/
def runOps (env : Env) (s : TryState) :
    List TermOp → TryState × List Event × List Observation
  | [] => (s, [], [])
  | op :: ops =>
    let r1 := runOp env s op
    let r2 := runOps env r1.1 ops
    (r2.1, r1.2.1 ++ r2.2.1, r1.2.2 :: r2.2.2)

/-- The outcome the single execution of the callable produces. -/
def outcome0 (c : TrySetup) : TryResult :=
  match c.fnOutcome with
  | .ok v => TryResult.success v
  | .error e => TryResult.failure e

/-- The observation each terminal operation is specified to make, as a pure
function of the single cached outcome and the instance configuration. -/
def specObserve (env : Env) (c : TrySetup) : TermOp → Observation
  | .unwrap =>
    .unwrapped
      (match outcome0 c with
       | .success v => .ok v
       | .failure e =>
         if msgTruthy c.message && !(env.ignoreErrorTypes.contains e.name)
         then .error (env.createWrappedError e (c.message.getD ""))
         else .error e)
  | .value | .thenAwait =>
    .valued
      (match outcome0 c with
       | .success v => v
       | .failure _ => jsNullish c.defaultValue)
  | .error =>
    .errored
      (match outcome0 c with
       | .success _ => none
       | .failure e => some e)
  | .result => .resulted (outcome0 c)

/-- Number of callable invocations in a trace. -/
def countCallFn (tr : List Event) : Nat :=
  tr.countP fun e => match e with | .callFn => true | _ => false

/-- Number of transformer invocations in a trace. -/
def countApplyTransformer (tr : List Event) : Nat :=
  tr.countP fun e => match e with | .applyTransformerCall => true | _ => false

/-- Number of `Reporter.addBreadcrumbs` calls in a trace. -/
def countAddBreadcrumbs (tr : List Event) : Nat :=
  tr.countP fun e => match e with | .addBreadcrumbsCall _ _ => true | _ => false

/-- Number of `Reporter.report` calls in a trace. -/
def countReport (tr : List Event) : Nat :=
  tr.countP fun e => match e with | .reportCall _ _ => true | _ => false

/-- The argument pair of the first `Reporter.report` call of a trace. -/
def firstReportCall : List Event → Option (JSError × ErrorReportConfig)
  | [] => none
  | .reportCall e cfg :: _ => some (e, cfg)
  | _ :: rest => firstReportCall rest

/-- The data argument of the first `Reporter.addBreadcrumbs` call of a
trace. -/
def firstAddBreadcrumbs : List Event → Option Ctx
  | [] => none
  | .addBreadcrumbsCall data _ :: _ => some data
  | _ :: rest => firstAddBreadcrumbs rest

/-! ### The Node reporter adapter (`src/adapters/node/reporter.ts`) -/

/-- The arguments `NodeReporter.report` hands to `Sentry.captureException`. -/
structure SentryCapture where
  error : JSError
  tags : TagMap

/-- NodeReporter.createWrappedError (identical to the no-op reporter's). -/
def nodeCreateWrappedError (error : JSError) (message : String) : JSError :=
  .mk "Error" message error.stack (some error)

/-- NodeReporter.report: wrap the error when a (truthy) message is present
and forward to Sentry with the config's tags plus the fixed
`library: '@power-rent/try-catch'` tag. -/
def nodeReporterReport (error : JSError) (config : ErrorReportConfig) :
    SentryCapture :=
  { error :=
      match config.message with
      | some m => if m == "" then error else nodeCreateWrappedError error m
      | none => error,
    tags := recMerge config.tags [("library", "@power-rent/try-catch")] }

/-! ### Record (JS object) lemmas -/

/-- Unfolding lemma for `List.lookup` on a cons cell, with a propositional
`if`. -/
theorem lookup_pair_cons {α : Type} (k a : String) (b : α)
    (l : List (String × α)) :
    ((a, b) :: l).lookup k = if k = a then some b else l.lookup k := by
  simp only [List.lookup_cons]
  by_cases h : k = a
  · simp [h]
  · simp [h, beq_eq_false_iff_ne.2 h]

/-- Lookup after a JS property assignment: the assigned key reads the new
value, any other key is unaffected. -/
theorem lookup_recSet {α : Type} (r : List (String × α)) (k : String) (v : α)
    (k' : String) :
    (recSet r k v).lookup k' = if k' = k then some v else r.lookup k' := by
  induction r with
  | nil => simp [recSet, lookup_pair_cons]
  | cons p rest ih =>
    obtain ⟨a, b⟩ := p
    simp only [recSet]
    by_cases hak : a = k
    · rw [if_pos hak]
      subst hak
      rw [lookup_pair_cons, lookup_pair_cons]
      by_cases hk : k' = a
      · simp [hk]
      · simp [hk]
    · rw [if_neg hak, lookup_pair_cons, lookup_pair_cons, ih]
      by_cases hk : k' = a
      · have hkk : ¬k' = k := fun h => hak (hk.symm.trans h)
        rw [if_pos hk, if_neg hkk, if_pos hk]
      · rw [if_neg hk, if_neg hk]

/-- Merging a singleton object is a single assignment. -/
theorem recMerge_single {α : Type} (r : List (String × α)) (k : String)
    (v : α) : recMerge r [(k, v)] = recSet r k v := rfl

/-- Merging the empty object changes nothing. -/
theorem recMerge_nil {α : Type} (r : List (String × α)) :
    recMerge r [] = r := rfl

/-! ### Key-list extraction (`extractFromKeys`) -/

/-- The loop body of `extractFromKeys`, as a named function. -/
def keyStep (obj : JSVal) (bd : Ctx) (k : String) : Ctx :=
  if isUndefined (getProp obj k) then bd else recSet bd k (getProp obj k)

/-- The fold of `extractFromKeys` is the fold of `keyStep`. -/
theorem extractFromKeys_eq_fold (obj : JSVal) (keys : List String) :
    extractFromKeys obj keys = keys.foldl (keyStep obj) [] := rfl

/-- Lookup characterization of the `forEach` loop of `extractFromKeys`,
generalized over the accumulator. -/
theorem lookup_extractFromKeys_go (obj : JSVal) (keys : List String)
    (acc : Ctx) (k : String) :
    (keys.foldl (keyStep obj) acc).lookup k =
      if k ∈ keys ∧ isUndefined (getProp obj k) = false then some (getProp obj k)
      else acc.lookup k := by
  induction keys generalizing acc with
  | nil => simp
  | cons kk rest ih =>
    rw [List.foldl_cons, ih]
    by_cases hmem : k ∈ rest ∧ isUndefined (getProp obj k) = false
    · rw [if_pos hmem, if_pos ⟨List.mem_cons_of_mem kk hmem.1, hmem.2⟩]
    · rw [if_neg hmem]
      by_cases hu : isUndefined (getProp obj kk) = true
      · rw [keyStep, if_pos hu]
        have hnot : ¬(k ∈ kk :: rest ∧ isUndefined (getProp obj k) = false) := by
          rintro ⟨h1, h2⟩
          rcases List.mem_cons.1 h1 with h | h
          · rw [h, hu] at h2; cases h2
          · exact hmem ⟨h, h2⟩
        rw [if_neg hnot]
      · rw [Bool.not_eq_true] at hu
        rw [keyStep, if_neg (by rw [hu]; exact Bool.false_ne_true),
          lookup_recSet]
        by_cases hk : k = kk
        · subst hk
          rw [if_pos rfl, if_pos ⟨List.mem_cons_self k rest, hu⟩]
        · have hnot : ¬(k ∈ kk :: rest ∧ isUndefined (getProp obj k) = false) := by
            rintro ⟨h1, h2⟩
            rcases List.mem_cons.1 h1 with h | h
            · exact hk h
            · exact hmem ⟨h, h2⟩
          rw [if_neg hk, if_neg hnot]

/-- Lookup characterization of `extractFromKeys`: exactly the listed keys
whose property value is not `undefined` are present, bound to that value. -/
theorem lookup_extractFromKeys (obj : JSVal) (keys : List String)
    (k : String) :
    (extractFromKeys obj keys).lookup k =
      if k ∈ keys ∧ isUndefined (getProp obj k) = false then some (getProp obj k)
      else none := by
  rw [extractFromKeys_eq_fold, lookup_extractFromKeys_go]
  rfl

/-! ### Classification and per-entry partials -/

/-- Whether a config entry is a string. -/
def isStrEntry : ConfigEntry → Bool
  | .str _ => true
  | _ => false

/-- Whether a config entry is a transformer function. -/
def isFnEntry : ConfigEntry → Bool
  | .fn _ => true
  | _ => false

/-- The all-string check in terms of `isStrEntry`. -/
theorem isStringArray_eq (entries : List ConfigEntry) :
    isStringArray entries =
      (decide (entries.length > 0) && entries.all isStrEntry) := by
  unfold isStringArray isStrEntry
  rfl

/-- The all-function check in terms of `isFnEntry`. -/
theorem isTransformerArray_eq (entries : List ConfigEntry) :
    isTransformerArray entries =
      (decide (entries.length > 0) && entries.all isFnEntry) := by
  unfold isTransformerArray isFnEntry
  rfl

/-- A list with an element refuting the predicate fails `all`. -/
theorem all_eq_false_of_get? {α : Type} (p : α → Bool) (l : List α) (j : Nat)
    (x : α) (h : l.get? j = some x) (hx : p x = false) : l.all p = false := by
  rcases Bool.eq_false_or_eq_true (l.all p) with h' | h'
  · rw [List.all_eq_true] at h'
    rw [h' x (List.get?_mem h)] at hx
    cases hx
  · exact h'

/-- Replacing an element by one with the same predicate value preserves
`all`. -/
theorem all_set_congr {α : Type} (p : α → Bool) :
    ∀ (l : List α) (j : Nat) (x x' : α), l.get? j = some x → p x' = p x →
      (l.set j x').all p = l.all p := by
  intro l
  induction l with
  | nil => intro j x x' h _; cases h
  | cons a rest ih =>
    intro j x x' h hp
    cases j with
    | zero =>
      rw [List.get?_cons_zero, Option.some_inj] at h
      subst h
      simp [List.all_cons, hp]
    | succ n =>
      rw [List.get?_cons_succ] at h
      simp only [List.set_cons_succ, List.all_cons, ih n x x' h hp]

/-- An array containing a function entry never passes the all-string
check. -/
theorem isStringArray_false_of_fn (entries : List ConfigEntry) (j : Nat)
    (t : Transformer) (h : entries.get? j = some (.fn t)) :
    isStringArray entries = false := by
  rw [isStringArray_eq,
    all_eq_false_of_get? isStrEntry entries j (.fn t) h rfl,
    Bool.and_false]

/-- Index bound from a successful `get?`. -/
theorem lt_length_of_get? {α : Type} (l : List α) (j : Nat) (x : α)
    (h : l.get? j = some x) : j < l.length := by
  rcases List.get?_eq_some.1 h with ⟨hlt, -⟩
  exact hlt

/-- Reading back the element just written by `set`. -/
theorem get?_set_self {α : Type} (l : List α) (j : Nat) (a : α)
    (h : j < l.length) : (l.set j a).get? j = some a := by
  rw [List.get?_eq_getElem?, List.getElem?_set_self h]

/-- Reading any other position after `set`. -/
theorem get?_set_ne {α : Type} (l : List α) (i j : Nat) (a : α) (h : i ≠ j) :
    (l.set i a).get? j = l.get? j := by
  rw [List.get?_eq_getElem?, List.get?_eq_getElem?, List.getElem?_set_ne h]

/-- Replacing one entry by an entry of the same string/function kind leaves
both array classifications unchanged. -/
theorem classification_set_congr (entries : List ConfigEntry) (j : Nat)
    (ej e' : ConfigEntry) (hj : entries.get? j = some ej)
    (hk1 : isFnEntry e' = isFnEntry ej)
    (hk2 : isStrEntry e' = isStrEntry ej) :
    isStringArray (entries.set j e') = isStringArray entries ∧
      isTransformerArray (entries.set j e') =
        isTransformerArray entries := by
  constructor
  · rw [isStringArray_eq, isStringArray_eq, List.length_set,
      all_set_congr isStrEntry entries j ej e' hj hk2]
  · rw [isTransformerArray_eq, isTransformerArray_eq, List.length_set,
      all_set_congr isFnEntry entries j ej e' hj hk1]

/-- The transformer an array-config entry carries, when it carries one: a
bare function entry or the `transform` field of a `{param, transform}`
extractor. -/
def entryTransformer : ConfigEntry → Option Transformer
  | .fn t => some t
  | .extractor (.transform _ t) => some t
  | _ => none

/-- The argument value the entry's transformer receives when the extraction
invokes it: an extractor entry reads the argument at its own `param` index,
a bare function entry (variadic shape) the argument at the entry's
position. -/
def entryArg (args : List JSVal) (j : Nat) : ConfigEntry → JSVal
  | .extractor ex => argAtI args ex.param
  | _ => argAt args j

/-- An entry carrying a transformer is not a string entry. -/
theorem isStrEntry_false_of_entryTransformer (ej : ConfigEntry)
    (t : Transformer) (ht : entryTransformer ej = some t) :
    isStrEntry ej = false := by
  cases ej with
  | str s => simp [entryTransformer] at ht
  | strList ks => rfl
  | fn t0 => rfl
  | extractor ex => rfl

/-- Element view of the variadic per-entry partials. -/
theorem variadicPartsGo_get? (args : List JSVal) (debug : Bool) :
    ∀ (l : List ConfigEntry) (k i : Nat),
      (variadicPartsGo args debug k l).get? i =
        (l.get? i).map (fun e => variadicEntryPart args debug (k + i) e) := by
  intro l
  induction l with
  | nil => intro k i; simp [variadicPartsGo]
  | cons e rest ih =>
    intro k i
    cases i with
    | zero => simp [variadicPartsGo]
    | succ n =>
      simp only [variadicPartsGo, List.get?_cons_succ, ih (k + 1) n]
      have harith : k + 1 + n = k + (n + 1) := by omega
      rw [harith]

/-- Element view of the positional-array per-entry partials. -/
theorem arrayPartsGo_get? (args : List JSVal) (debug : Bool) :
    ∀ (l : List ConfigEntry) (k i : Nat),
      (arrayPartsGo args debug k l).get? i =
        (l.get? i).map (fun e => arrayEntryPart args debug (k + i) e) := by
  intro l
  induction l with
  | nil => intro k i; simp [arrayPartsGo]
  | cons e rest ih =>
    intro k i
    cases i with
    | zero => simp [arrayPartsGo]
    | succ n =>
      simp only [arrayPartsGo, List.get?_cons_succ, ih (k + 1) n]
      have harith : k + 1 + n = k + (n + 1) := by omega
      rw [harith]

/-- The variadic traversal is the merge-fold of its per-entry partials. -/
theorem variadicGo_eq_parts (args : List JSVal) (debug : Bool) :
    ∀ (l : List ConfigEntry) (k : Nat) (bd : Ctx),
      variadicGo args debug k bd l =
        (variadicPartsGo args debug k l).foldl recMerge bd := by
  intro l
  induction l with
  | nil => intro k bd; rfl
  | cons e rest ih =>
    intro k bd
    have hstep :
        variadicEntryStep args debug k bd e =
          recMerge bd (variadicEntryPart args debug k e) := by
      cases e with
      | fn t =>
        simp only [variadicEntryStep, variadicEntryPart]
        by_cases hk : k < args.length
        · simp [hk]
        · simp [hk, recMerge_nil]
      | str s => rfl
      | strList ks => rfl
      | extractor ex => rfl
    rw [variadicGo, hstep, variadicPartsGo, List.foldl_cons, ih]

/-- One positional-array step merges that entry's partial context. -/
theorem arrayEntryStep_eq_merge (args : List JSVal) (debug : Bool) (i : Nat)
    (bd : Ctx) (e : ConfigEntry) :
    arrayEntryStep args debug i bd e =
      recMerge bd (arrayEntryPart args debug i e) := by
  cases e with
  | extractor ex => rfl
  | str s => rfl
  | strList ks =>
    rw [arrayEntryStep, arrayEntryPart]
    by_cases h : isTruthyObject (argAt args i) = true
    · rw [if_pos h, if_pos h]
    · rw [if_neg h, if_neg h, recMerge_nil]
  | fn t => rfl

/-- The positional-array traversal is the merge-fold of its per-entry
partials. -/
theorem extractFromArrayGo_eq_parts (args : List JSVal) (debug : Bool) :
    ∀ (l : List ConfigEntry) (k : Nat) (bd : Ctx),
      extractFromArrayGo args debug k bd l =
        (arrayPartsGo args debug k l).foldl recMerge bd := by
  intro l
  induction l with
  | nil => intro k bd; rfl
  | cons e rest ih =>
    intro k bd
    rw [extractFromArrayGo, arrayEntryStep_eq_merge, arrayPartsGo,
      List.foldl_cons, ih]

/-- The index-keyed-map traversal is the merge-fold of its per-entry
partials. -/
theorem extractFromObjectGo_eq_parts (args : List JSVal) (debug : Bool) :
    ∀ (l : List (Int × ObjMapVal)) (bd : Ctx),
      extractFromObjectGo args debug bd l =
        (l.map (objMapPart args debug)).foldl recMerge bd := by
  intro l
  induction l with
  | nil => intro bd; rfl
  | cons p rest ih =>
    intro bd
    obtain ⟨idx, cfg⟩ := p
    rw [extractFromObjectGo, List.map_cons, List.foldl_cons]
    have hstep :
        (if TransformerRegistry.validateParameterIndex idx args.length then
            recMerge bd (extractFromParameterConfig idx cfg args debug)
          else bd) =
          recMerge bd (objMapPart args debug (idx, cfg)) := by
      by_cases h :
          TransformerRegistry.validateParameterIndex idx args.length = true
      · rw [if_pos h, objMapPart, if_pos h]
      · rw [if_neg h, objMapPart, if_neg h, recMerge_nil]
    rw [hstep, ih]

/-- Provided the config is not an all-string array, `extract` on an array
config is the merge of the per-entry partial contexts. -/
theorem extract_arr_eq_mergeParts (entries : List ConfigEntry)
    (args : List JSVal) (debug : Bool) (h : isStringArray entries = false) :
    extract (.arr entries) args debug =
      mergeAll (extractParts (.arr entries) args debug) := by
  rw [extract, extractParts]
  rw [h]
  by_cases ht : isTransformerArray entries = true
  · rw [ht]
    simp only [Bool.false_eq_true, if_false, if_true]
    rw [variadicGo_eq_parts, mergeAll]
  · rw [Bool.not_eq_true] at ht
    rw [ht]
    simp only [Bool.false_eq_true, if_false]
    rw [extractFromArray, extractFromArrayGo_eq_parts, mergeAll]

/-- On an index-keyed map config, `extract` is always the merge of the
per-entry partial contexts. -/
theorem extract_objMap_eq_mergeParts (m : List (Int × ObjMapVal))
    (args : List JSVal) (debug : Bool) :
    extract (.objMap m) args debug =
      mergeAll (extractParts (.objMap m) args debug) := by
  show extractFromObject m args debug =
    mergeAll (m.map (objMapPart args debug))
  rw [extractFromObject, extractFromObjectGo_eq_parts]
  rfl

/-- Splitting the positional-array traversal at an append. -/
theorem extractFromArrayGo_append (args : List JSVal) (debug : Bool) :
    ∀ (l1 l2 : List ConfigEntry) (i : Nat) (bd : Ctx),
      extractFromArrayGo args debug i bd (l1 ++ l2) =
        extractFromArrayGo args debug (i + l1.length)
          (extractFromArrayGo args debug i bd l1) l2 := by
  intro l1
  induction l1 with
  | nil => intro l2 i bd; simp [extractFromArrayGo]
  | cons e rest ih =>
    intro l2 i bd
    rw [List.cons_append, extractFromArrayGo, ih, extractFromArrayGo]
    have harith : i + 1 + rest.length = i + (rest.length + 1) := by omega
    rw [harith]
    rfl

/-! ### Event counting -/

/-- Event counts distribute over trace concatenation. -/
theorem countCallFn_append (a b : List Event) :
    countCallFn (a ++ b) = countCallFn a + countCallFn b :=
  List.countP_append _ a b

/-- Transformer-call counts distribute over trace concatenation. -/
theorem countApplyTransformer_append (a b : List Event) :
    countApplyTransformer (a ++ b) =
      countApplyTransformer a + countApplyTransformer b :=
  List.countP_append _ a b

/-- Breadcrumb-emission counts distribute over trace concatenation. -/
theorem countAddBreadcrumbs_append (a b : List Event) :
    countAddBreadcrumbs (a ++ b) =
      countAddBreadcrumbs a + countAddBreadcrumbs b :=
  List.countP_append _ a b

/-- Report counts distribute over trace concatenation. -/
theorem countReport_append (a b : List Event) :
    countReport (a ++ b) = countReport a + countReport b :=
  List.countP_append _ a b

/-- A block of transformer-call events counts as its length for
`countApplyTransformer` and as zero for the other counters. -/
theorem counts_replicate_apply (n : Nat) :
    countApplyTransformer (List.replicate n Event.applyTransformerCall) = n ∧
      countCallFn (List.replicate n Event.applyTransformerCall) = 0 ∧
      countAddBreadcrumbs (List.replicate n Event.applyTransformerCall) = 0 ∧
      countReport (List.replicate n Event.applyTransformerCall) = 0 := by
  induction n with
  | zero => exact ⟨rfl, rfl, rfl, rfl⟩
  | succ m ih =>
    rw [List.replicate_succ]
    refine ⟨?_, ?_, ?_, ?_⟩ <;>
      simp only [countApplyTransformer, countCallFn, countAddBreadcrumbs,
        countReport, List.countP_cons] at ih ⊢ <;>
      simp [ih.1, ih.2.1, ih.2.2.1, ih.2.2.2]

/-! ### Execution lemmas -/

/-- The outcome the callable of a state produces when invoked. -/
def outcomeOf (s : TryState) : TryResult :=
  match s.fnOutcome with
  | .ok v => TryResult.success v
  | .error e => TryResult.failure e

/-- An already-executed instance returns its cached outcome with no
events. -/
theorem executeOp_cached (s : TryState) (r : TryResult)
    (h1 : s.execState = .executed) (h2 : s.cachedResult = some r) :
    executeOp s = (s, [], r) := by
  unfold executeOp
  rw [h1, h2]

/-- A pending instance invokes the callable once, caches the outcome and
becomes executed. -/
theorem executeOp_fresh (s : TryState) (h : s.execState = .pending) :
    executeOp s =
      ({ s with cachedResult := some (outcomeOf s), execState := .executed },
       Event.callFn :: (if s.hasFinally then [Event.finallyCall] else []),
       outcomeOf s) := by
  unfold executeOp outcomeOf
  rw [h]

/-- The configuration and breadcrumb-cache fields a terminal operation never
mutates, bundled for reuse. -/
def configPreserved (s s' : TryState) : Prop :=
  s'.fnOutcome = s.fnOutcome ∧ s'.fnName = s.fnName ∧ s'.args = s.args ∧
    s'.message = s.message ∧ s'.breadcrumbConfig = s.breadcrumbConfig ∧
    s'.tags = s.tags ∧ s'.defaultValue = s.defaultValue ∧
    s'.hasFinally = s.hasFinally ∧ s'.debugFlag = s.debugFlag

/-- Remaining transformer invocations the instance may still perform: a full
extraction's worth while nothing is cached, none afterwards. -/
def potApply (s : TryState) : Nat :=
  if s.breadcrumbsAdded then 0
  else
    match s.breadcrumbConfig, s.cachedBreadcrumbData with
    | some cfg, none => transformerCallCount cfg s.args
    | _, _ => 0

/-- Remaining `Reporter.addBreadcrumbs` calls the instance may still
perform. -/
def potAdd (s : TryState) : Nat :=
  if s.breadcrumbsAdded then 0
  else if s.breadcrumbConfig.isSome then 1 else 0

/-- Behaviour of `addBreadcrumbsIfConfigured`: configuration, cached result
and execution state are untouched; it emits no callable or report events;
its transformer and emission events are paid for by the potentials. -/
theorem addBc_spec (s : TryState) :
    configPreserved s (addBreadcrumbsIfConfigured s).1 ∧
      (addBreadcrumbsIfConfigured s).1.cachedResult = s.cachedResult ∧
      (addBreadcrumbsIfConfigured s).1.execState = s.execState ∧
      countCallFn (addBreadcrumbsIfConfigured s).2 = 0 ∧
      countReport (addBreadcrumbsIfConfigured s).2 = 0 ∧
      countApplyTransformer (addBreadcrumbsIfConfigured s).2 +
          potApply (addBreadcrumbsIfConfigured s).1 ≤ potApply s ∧
      countAddBreadcrumbs (addBreadcrumbsIfConfigured s).2 +
          potAdd (addBreadcrumbsIfConfigured s).1 ≤ potAdd s := by
  obtain ⟨fo, fnm, ar, ms, bc, tg, dv, hf, db, cr, cbd, ba, es⟩ := s
  cases bc with
  | none =>
    simp [addBreadcrumbsIfConfigured, configPreserved, countCallFn,
      countReport, countApplyTransformer, countAddBreadcrumbs]
  | some cfg =>
    cases ba with
    | true =>
      simp [addBreadcrumbsIfConfigured, configPreserved, countCallFn,
        countReport, countApplyTransformer, countAddBreadcrumbs, potApply,
        potAdd]
    | false =>
      cases cbd with
      | none =>
        simp [addBreadcrumbsIfConfigured, configPreserved, countCallFn,
          countReport, countApplyTransformer, countAddBreadcrumbs, potApply,
          potAdd, List.countP_append, List.countP_cons, List.countP_replicate]
      | some data =>
        simp [addBreadcrumbsIfConfigured, configPreserved, countCallFn,
          countReport, countApplyTransformer, countAddBreadcrumbs, potApply,
          potAdd, List.countP_cons]

/-- Transitivity of field preservation. -/
theorem configPreserved_trans (a b c : TryState)
    (h1 : configPreserved a b) (h2 : configPreserved b c) :
    configPreserved a c := by
  obtain ⟨p1, p2, p3, p4, p5, p6, p7, p8, p9⟩ := h1
  obtain ⟨q1, q2, q3, q4, q5, q6, q7, q8, q9⟩ := h2
  exact ⟨q1.trans p1, q2.trans p2, q3.trans p3, q4.trans p4, q5.trans p5,
    q6.trans p6, q7.trans p7, q8.trans p8, q9.trans p9⟩

/-- Potentials only depend on the breadcrumb fields and the config, so they
are equal on states related by preservation of those fields. -/
theorem pot_congr (s s' : TryState) (h : configPreserved s s')
    (h1 : s'.cachedBreadcrumbData = s.cachedBreadcrumbData)
    (h2 : s'.breadcrumbsAdded = s.breadcrumbsAdded) :
    potApply s' = potApply s ∧ potAdd s' = potAdd s := by
  obtain ⟨-, -, p3, -, p5, -, -, -, -⟩ := h
  unfold potApply potAdd
  rw [h1, h2, p3, p5]
  exact ⟨rfl, rfl⟩

/-- Behaviour of `reportError`: it preserves configuration, cached result
and execution state, emits no callable event and exactly one report event,
whose config carries the instance's message, tags and function name. -/
theorem reportError_spec (s : TryState) (error : JSError) :
    configPreserved s (reportError s error).1 ∧
      (reportError s error).1.cachedResult = s.cachedResult ∧
      (reportError s error).1.execState = s.execState ∧
      countCallFn (reportError s error).2 = 0 ∧
      countReport (reportError s error).2 = 1 ∧
      countApplyTransformer (reportError s error).2 +
          potApply (reportError s error).1 ≤ potApply s ∧
      countAddBreadcrumbs (reportError s error).2 +
          potAdd (reportError s error).1 ≤ potAdd s ∧
      (firstReportCall (reportError s error).2).map
          (fun p => (p.1, p.2.message, p.2.tags, p.2.functionName)) =
        some (error, s.message, s.tags, s.fnName) := by
  obtain ⟨hcp, hcr, hes, hcf, hrep, happ, hadd⟩ := addBc_spec s
  have htrace : (reportError s error).2 =
      (addBreadcrumbsIfConfigured s).2 ++
        [Event.reportCall error
          ⟨(addBreadcrumbsIfConfigured s).1.message,
           (addBreadcrumbsIfConfigured s).1.tags,
           (addBreadcrumbsIfConfigured s).1.cachedBreadcrumbData,
           (addBreadcrumbsIfConfigured s).1.fnName⟩] := rfl
  have hstate : (reportError s error).1 = (addBreadcrumbsIfConfigured s).1 :=
    rfl
  refine ⟨hstate ▸ hcp, hstate ▸ hcr, hstate ▸ hes, ?_, ?_, ?_, ?_, ?_⟩
  · rw [htrace, countCallFn_append, hcf]
    rfl
  · rw [htrace, countReport_append, hrep]
    rfl
  · rw [htrace, countApplyTransformer_append, hstate]
    have hone : countApplyTransformer
        [Event.reportCall error
          ⟨(addBreadcrumbsIfConfigured s).1.message,
           (addBreadcrumbsIfConfigured s).1.tags,
           (addBreadcrumbsIfConfigured s).1.cachedBreadcrumbData,
           (addBreadcrumbsIfConfigured s).1.fnName⟩] = 0 := rfl
    rw [hone]
    omega
  · rw [htrace, countAddBreadcrumbs_append, hstate]
    have hone : countAddBreadcrumbs
        [Event.reportCall error
          ⟨(addBreadcrumbsIfConfigured s).1.message,
           (addBreadcrumbsIfConfigured s).1.tags,
           (addBreadcrumbsIfConfigured s).1.cachedBreadcrumbData,
           (addBreadcrumbsIfConfigured s).1.fnName⟩] = 0 := rfl
    rw [hone]
    omega
  · rw [htrace]
    have hnone : firstReportCall (addBreadcrumbsIfConfigured s).2 = none := by
      have h0 := hrep
      revert h0
      generalize (addBreadcrumbsIfConfigured s).2 = tr
      intro h0
      induction tr with
      | nil => rfl
      | cons ev rest ih =>
        cases ev with
        | reportCall e cfg =>
          rw [countReport, List.countP_cons] at h0
          simp at h0
        | callFn =>
          rw [countReport, List.countP_cons] at h0
          simp at h0
          exact ih (by simpa [countReport] using h0)
        | finallyCall =>
          rw [countReport, List.countP_cons] at h0
          simp at h0
          exact ih (by simpa [countReport] using h0)
        | applyTransformerCall =>
          rw [countReport, List.countP_cons] at h0
          simp at h0
          exact ih (by simpa [countReport] using h0)
        | addBreadcrumbsCall d f =>
          rw [countReport, List.countP_cons] at h0
          simp at h0
          exact ih (by simpa [countReport] using h0)
    have happend : ∀ (a b : List Event), firstReportCall a = none →
        firstReportCall (a ++ b) = firstReportCall b := by
      intro a
      induction a with
      | nil => intro b _; rfl
      | cons ev rest ih =>
        intro b hn
        cases ev with
        | reportCall e cfg => cases hn
        | callFn => exact ih b hn
        | finallyCall => exact ih b hn
        | applyTransformerCall => exact ih b hn
        | addBreadcrumbsCall d f => exact ih b hn
    rw [happend _ _ hnone]
    obtain ⟨-, hfn, -, hm, -, ht, -, -, -⟩ := hcp
    simp [firstReportCall, hm, ht, hfn]

/-! ### The reachability invariant -/

/-- States reachable from a fresh instance of a given setup: configuration
fields match the setup and the execution cache is either untouched or holds
the callable's single outcome. -/
def Reach (c : TrySetup) (s : TryState) : Prop :=
  configPreserved c.toState s ∧
    ((s.execState = .pending ∧ s.cachedResult = none) ∨
      (s.execState = .executed ∧ s.cachedResult = some (outcome0 c)))

/-- A fresh instance is reachable. -/
theorem reach_toState (c : TrySetup) : Reach c c.toState :=
  ⟨⟨rfl, rfl, rfl, rfl, rfl, rfl, rfl, rfl, rfl⟩, Or.inl ⟨rfl, rfl⟩⟩

/-- Behaviour of `execute` on a reachable state: it yields the setup's
outcome, caches it, emits one callable event exactly when the state was
pending, and leaves everything else alone. -/
theorem executeOp_reach (c : TrySetup) (s : TryState) (h : Reach c s) :
    (executeOp s).2.2 = outcome0 c ∧
      configPreserved s (executeOp s).1 ∧
      (executeOp s).1.execState = .executed ∧
      (executeOp s).1.cachedResult = some (outcome0 c) ∧
      (executeOp s).1.cachedBreadcrumbData = s.cachedBreadcrumbData ∧
      (executeOp s).1.breadcrumbsAdded = s.breadcrumbsAdded ∧
      countCallFn (executeOp s).2.1 =
        (if s.execState = .pending then 1 else 0) ∧
      countReport (executeOp s).2.1 = 0 := by
  have hfo : s.fnOutcome = c.fnOutcome := h.1.1
  rcases h.2 with ⟨hes, hcr⟩ | ⟨hes, hcr⟩
  · have hout : outcomeOf s = outcome0 c := by
      unfold outcomeOf outcome0
      rw [hfo]
    rw [executeOp_fresh s hes, hout]
    refine ⟨rfl, ⟨rfl, rfl, rfl, rfl, rfl, rfl, rfl, rfl, rfl⟩, rfl, rfl,
      rfl, rfl, ?_, ?_⟩
    · rw [hes, if_pos rfl]
      by_cases hhf : s.hasFinally = true
      · simp [hhf, countCallFn, List.countP_cons]
      · simp [hhf, countCallFn, List.countP_cons]
    · by_cases hhf : s.hasFinally = true
      · simp [hhf, countReport, List.countP_cons]
      · simp [hhf, countReport, List.countP_cons]
  · rw [executeOp_cached s _ hes hcr]
    refine ⟨rfl, ⟨rfl, rfl, rfl, rfl, rfl, rfl, rfl, rfl, rfl⟩, hes, hcr,
      rfl, rfl, ?_, rfl⟩
    rw [hes]
    simp [countCallFn]

/-- Behaviour of `value()` on a reachable state. -/
theorem valueOp_reach (c : TrySetup) (s : TryState) (h : Reach c s) :
    Reach c (valueOp s).1 ∧
      (valueOp s).2.2 =
        (match outcome0 c with
          | .success v => v
          | .failure _ => jsNullish c.defaultValue) ∧
      countCallFn (valueOp s).2.1 =
        (if s.execState = .pending then 1 else 0) ∧
      (valueOp s).1.execState = .executed := by
  obtain ⟨hx, hcp1, hes1, hcr1, -, -, hcnt1, -⟩ := executeOp_reach c s h
  have heq : executeOp s = ((executeOp s).1, (executeOp s).2.1, outcome0 c) :=
    by rw [← hx]
  have hval : valueOp s =
      (match outcome0 c with
        | .success v => ((executeOp s).1, (executeOp s).2.1, v)
        | .failure error =>
          let step :=
            if msgTruthy (executeOp s).1.message then
              reportError (executeOp s).1 error
            else
              match (executeOp s).1.breadcrumbConfig with
              | some _ => addBreadcrumbsIfConfigured (executeOp s).1
              | none => ((executeOp s).1, [])
          (step.1, (executeOp s).2.1 ++ step.2,
            jsNullish step.1.defaultValue)) := by
    rw [valueOp, heq]
  have hreach1 : Reach c (executeOp s).1 :=
    ⟨configPreserved_trans _ _ _ h.1 hcp1, Or.inr ⟨hes1, hcr1⟩⟩
  rcases hout : outcome0 c with v | e
  · rw [hval, hout]
    exact ⟨hreach1, rfl, hcnt1, hes1⟩
  · rw [hval, hout]
    by_cases hmt : msgTruthy (executeOp s).1.message = true
    · simp only [hmt, if_true]
      obtain ⟨hcp2, hcr2, hes2, hcf2, -, -, -, -⟩ :=
        reportError_spec (executeOp s).1 e
      refine ⟨⟨configPreserved_trans _ _ _ hreach1.1 hcp2,
        Or.inr ⟨hes2.trans hes1, hcr2.trans hcr1⟩⟩, ?_, ?_, hes2.trans hes1⟩
      · rw [hcp2.2.2.2.2.2.2.1, hcp1.2.2.2.2.2.2.1]
        exact congrArg jsNullish h.1.2.2.2.2.2.2.1
      · rw [countCallFn_append, hcf2, hcnt1]
        omega
    · simp only [hmt, Bool.false_eq_true, if_false]
      rcases hbc : (executeOp s).1.breadcrumbConfig with _ | cfg
      · refine ⟨hreach1, ?_, ?_, hes1⟩
        · exact congrArg jsNullish
            ((hcp1.2.2.2.2.2.2.1).trans h.1.2.2.2.2.2.2.1)
        · rw [countCallFn_append, hcnt1]
          simp [countCallFn]
      · obtain ⟨hcp2, hcr2, hes2, hcf2, -, -, -⟩ :=
          addBc_spec (executeOp s).1
        refine ⟨⟨configPreserved_trans _ _ _ hreach1.1 hcp2,
          Or.inr ⟨hes2.trans hes1, hcr2.trans hcr1⟩⟩, ?_, ?_, hes2.trans hes1⟩
        · rw [hcp2.2.2.2.2.2.2.1, hcp1.2.2.2.2.2.2.1]
          exact congrArg jsNullish h.1.2.2.2.2.2.2.1
        · rw [countCallFn_append, hcf2, hcnt1]
          omega

/-- Behaviour of `unwrap()` on a reachable state. -/
theorem unwrapOp_reach (env : Env) (c : TrySetup) (s : TryState)
    (h : Reach c s) :
    Reach c (unwrapOp env s).1 ∧
      (unwrapOp env s).2.2 =
        (match outcome0 c with
          | .success v => .ok v
          | .failure e =>
            if msgTruthy c.message && !(env.ignoreErrorTypes.contains e.name)
            then .error (env.createWrappedError e (c.message.getD ""))
            else .error e) ∧
      countCallFn (unwrapOp env s).2.1 =
        (if s.execState = .pending then 1 else 0) ∧
      (unwrapOp env s).1.execState = .executed := by
  obtain ⟨hx, hcp1, hes1, hcr1, -, -, hcnt1, -⟩ := executeOp_reach c s h
  have heq : executeOp s = ((executeOp s).1, (executeOp s).2.1, outcome0 c) :=
    by rw [← hx]
  have hmsg1 : (executeOp s).1.message = c.message :=
    (hcp1.2.2.2.1).trans h.1.2.2.2.1
  have hreach1 : Reach c (executeOp s).1 :=
    ⟨configPreserved_trans _ _ _ h.1 hcp1, Or.inr ⟨hes1, hcr1⟩⟩
  have hunwrap : unwrapOp env s =
      (match outcome0 c with
        | .success v => ((executeOp s).1, (executeOp s).2.1, .ok v)
        | .failure error =>
          let step :=
            if msgTruthy (executeOp s).1.message then
              reportError (executeOp s).1 error
            else ((executeOp s).1, [])
          if msgTruthy step.1.message &&
              !(env.ignoreErrorTypes.contains error.name) then
            (step.1, (executeOp s).2.1 ++ step.2,
             .error (env.createWrappedError error (step.1.message.getD "")))
          else (step.1, (executeOp s).2.1 ++ step.2, .error error)) := by
    rw [unwrapOp, heq]
  rcases hout : outcome0 c with v | e
  · rw [hunwrap, hout]
    exact ⟨hreach1, rfl, hcnt1, hes1⟩
  · rw [hunwrap, hout]
    by_cases hmt : msgTruthy c.message = true
    · have hmt1 : msgTruthy (executeOp s).1.message = true := by
        rw [hmsg1, hmt]
      simp only [hmt1, if_true]
      obtain ⟨hcp2, hcr2, hes2, hcf2, -, -, -, -⟩ :=
        reportError_spec (executeOp s).1 e
      have hmsg2 : (reportError (executeOp s).1 e).1.message = c.message :=
        (hcp2.2.2.2.1).trans hmsg1
      have hreach2 : Reach c (reportError (executeOp s).1 e).1 :=
        ⟨configPreserved_trans _ _ _ hreach1.1 hcp2,
         Or.inr ⟨hes2.trans hes1, hcr2.trans hcr1⟩⟩
      have hmt2 : msgTruthy (reportError (executeOp s).1 e).1.message = true :=
        by rw [hmsg2, hmt]
      by_cases hct : env.ignoreErrorTypes.contains e.name = true
      · simp only [hct, hmt, hmt2, Bool.not_true, Bool.and_false,
          Bool.false_eq_true, if_false]
        refine ⟨hreach2, ?_, ?_, ?_⟩
        · trivial
        · rw [countCallFn_append, hcf2, hcnt1]
          omega
        · exact hes2.trans hes1
      · rw [Bool.not_eq_true] at hct
        simp only [hct, hmt, hmt2, Bool.not_false, Bool.and_true, if_true,
          hmsg2]
        refine ⟨hreach2, ?_, ?_, ?_⟩
        · trivial
        · rw [countCallFn_append, hcf2, hcnt1]
          omega
        · exact hes2.trans hes1
    · rw [Bool.not_eq_true] at hmt
      have hmf : msgTruthy (executeOp s).1.message = false := by
        rw [hmsg1, hmt]
      simp only [hmt, hmf, Bool.false_eq_true, if_false, Bool.false_and]
      refine ⟨hreach1, ?_, ?_, ?_⟩
      · trivial
      · rw [countCallFn_append, hcnt1]
        simp [countCallFn]
      · exact hes1

/-- Behaviour of `error()` on a reachable state. -/
theorem errorOp_reach (c : TrySetup) (s : TryState) (h : Reach c s) :
    Reach c (errorOp s).1 ∧
      (errorOp s).2.2 =
        (match outcome0 c with
          | .success _ => none
          | .failure e => some e) ∧
      countCallFn (errorOp s).2.1 =
        (if s.execState = .pending then 1 else 0) ∧
      (errorOp s).1.execState = .executed := by
  obtain ⟨hx, hcp1, hes1, hcr1, -, -, hcnt1, -⟩ := executeOp_reach c s h
  have heq : executeOp s = ((executeOp s).1, (executeOp s).2.1, outcome0 c) :=
    by rw [← hx]
  have herr : errorOp s =
      ((executeOp s).1, (executeOp s).2.1,
       match outcome0 c with
       | .success _ => none
       | .failure e => some e) := by
    rw [errorOp, heq]
  rw [herr]
  exact ⟨⟨configPreserved_trans _ _ _ h.1 hcp1, Or.inr ⟨hes1, hcr1⟩⟩, rfl,
    hcnt1, hes1⟩

/-- Behaviour of `result()` on a reachable state. -/
theorem resultOp_reach (c : TrySetup) (s : TryState) (h : Reach c s) :
    Reach c (resultOp s).1 ∧
      (resultOp s).2.2 = outcome0 c ∧
      countCallFn (resultOp s).2.1 =
        (if s.execState = .pending then 1 else 0) ∧
      (resultOp s).1.execState = .executed := by
  obtain ⟨hx, hcp1, hes1, hcr1, -, -, hcnt1, -⟩ := executeOp_reach c s h
  have heq : executeOp s = ((executeOp s).1, (executeOp s).2.1, outcome0 c) :=
    by rw [← hx]
  have hres : resultOp s =
      ((executeOp s).1, (executeOp s).2.1, outcome0 c) := by
    rw [resultOp, heq]
  rw [hres]
  exact ⟨⟨configPreserved_trans _ _ _ h.1 hcp1, Or.inr ⟨hes1, hcr1⟩⟩, rfl,
    hcnt1, hes1⟩

/-- Behaviour of any terminal operation on a reachable state: the state
stays reachable and executed, the observation is the specified pure function
of the single outcome, and the callable runs exactly when the state was
still pending. -/
theorem runOp_spec (env : Env) (c : TrySetup) (s : TryState) (op : TermOp)
    (h : Reach c s) :
    Reach c (runOp env s op).1 ∧
      (runOp env s op).2.2 = specObserve env c op ∧
      countCallFn (runOp env s op).2.1 =
        (if s.execState = .pending then 1 else 0) ∧
      (runOp env s op).1.execState = .executed := by
  cases op with
  | unwrap =>
    obtain ⟨h1, h2, h3, h4⟩ := unwrapOp_reach env c s h
    exact ⟨h1, congrArg Observation.unwrapped h2, h3, h4⟩
  | value =>
    obtain ⟨h1, h2, h3, h4⟩ := valueOp_reach c s h
    exact ⟨h1, congrArg Observation.valued h2, h3, h4⟩
  | error =>
    obtain ⟨h1, h2, h3, h4⟩ := errorOp_reach c s h
    exact ⟨h1, congrArg Observation.errored h2, h3, h4⟩
  | result =>
    obtain ⟨h1, h2, h3, h4⟩ := resultOp_reach c s h
    exact ⟨h1, congrArg Observation.resulted h2, h3, h4⟩
  | thenAwait =>
    obtain ⟨h1, h2, h3, h4⟩ := valueOp_reach c s h
    exact ⟨h1, congrArg Observation.valued h2, h3, h4⟩

/-- Behaviour of any sequence of terminal operations from a reachable state:
the callable runs exactly once when at least one operation runs against a
pending state, and every operation observes the specified function of the
single outcome. -/
theorem runOps_spec (env : Env) (c : TrySetup) :
    ∀ (ops : List TermOp) (s : TryState), Reach c s →
      Reach c (runOps env s ops).1 ∧
        (runOps env s ops).2.2 = ops.map (specObserve env c) ∧
        countCallFn (runOps env s ops).2.1 =
          (if s.execState = .pending ∧ ops ≠ [] then 1 else 0) := by
  intro ops
  induction ops with
  | nil =>
    intro s h
    exact ⟨h, rfl, by simp [runOps, countCallFn]⟩
  | cons op rest ih =>
    intro s h
    obtain ⟨h1, h2, h3, h4⟩ := runOp_spec env c s op h
    obtain ⟨g1, g2, g3⟩ := ih (runOp env s op).1 h1
    refine ⟨g1, ?_, ?_⟩
    · show (runOp env s op).2.2 :: (runOps env (runOp env s op).1 rest).2.2 =
        specObserve env c op :: rest.map (specObserve env c)
      rw [h2, g2]
    · show countCallFn
          ((runOp env s op).2.1 ++ (runOps env (runOp env s op).1 rest).2.1) =
        _
      rw [countCallFn_append, h3, g3, h4]
      by_cases hp : s.execState = .pending
      · simp [hp]
      · simp [hp]

/-! ### Potential argument: breadcrumbs computed and emitted at most once -/

/-- Execute emits no transformer, breadcrumb or report events and leaves the
breadcrumb cache alone. -/
theorem executeOp_pot (s : TryState) :
    configPreserved s (executeOp s).1 ∧
      (executeOp s).1.cachedBreadcrumbData = s.cachedBreadcrumbData ∧
      (executeOp s).1.breadcrumbsAdded = s.breadcrumbsAdded ∧
      countApplyTransformer (executeOp s).2.1 = 0 ∧
      countAddBreadcrumbs (executeOp s).2.1 = 0 := by
  obtain ⟨fo, fnm, ar, ms, bc, tg, dv, hf, db, cr, cbd, ba, es⟩ := s
  cases es <;> cases cr <;> cases hf <;>
    simp [executeOp, configPreserved, countApplyTransformer,
      countAddBreadcrumbs, List.countP_cons]

/-- The potentials after `execute` equal the potentials before. -/
theorem executeOp_pot_eq (s : TryState) :
    potApply (executeOp s).1 = potApply s ∧
      potAdd (executeOp s).1 = potAdd s := by
  obtain ⟨hcp, hcbd, hba, -, -⟩ := executeOp_pot s
  exact pot_congr s (executeOp s).1 hcp hcbd hba

/-- The `value()` operation pays its transformer and emission events out of
the instance potentials. -/
theorem valueOp_pot (s : TryState) :
    countApplyTransformer (valueOp s).2.1 + potApply (valueOp s).1 ≤
        potApply s ∧
      countAddBreadcrumbs (valueOp s).2.1 + potAdd (valueOp s).1 ≤
        potAdd s := by
  obtain ⟨-, -, -, hap1, had1⟩ := executeOp_pot s
  obtain ⟨hpa1, hpd1⟩ := executeOp_pot_eq s
  rcases hr : (executeOp s).2.2 with v | e
  · have heq : executeOp s =
        ((executeOp s).1, (executeOp s).2.1, TryResult.success v) := by
      rw [← hr]
    have hval : valueOp s =
        ((executeOp s).1, (executeOp s).2.1, v) := by
      rw [valueOp, heq]
    rw [hval]
    dsimp only
    constructor
    · rw [hap1, hpa1]
      omega
    · rw [had1, hpd1]
      omega
  · have heq : executeOp s =
        ((executeOp s).1, (executeOp s).2.1, TryResult.failure e) := by
      rw [← hr]
    have hval : valueOp s =
        (let step :=
          if msgTruthy (executeOp s).1.message then
            reportError (executeOp s).1 e
          else
            match (executeOp s).1.breadcrumbConfig with
            | some _ => addBreadcrumbsIfConfigured (executeOp s).1
            | none => ((executeOp s).1, [])
        (step.1, (executeOp s).2.1 ++ step.2,
          jsNullish step.1.defaultValue)) := by
      rw [valueOp, heq]
    rw [hval]
    by_cases hmt : msgTruthy (executeOp s).1.message = true
    · simp only [hmt, if_true]
      obtain ⟨-, -, -, -, -, hap2, had2, -⟩ :=
        reportError_spec (executeOp s).1 e
      constructor
      · rw [countApplyTransformer_append, hap1]
        omega
      · rw [countAddBreadcrumbs_append, had1]
        omega
    · simp only [hmt, Bool.false_eq_true, if_false]
      rcases hbc : (executeOp s).1.breadcrumbConfig with _ | cfg
      · simp only [hbc]
        constructor
        · rw [countApplyTransformer_append, hap1]
          simp only [countApplyTransformer, List.countP_nil]
          rw [hpa1]
          omega
        · rw [countAddBreadcrumbs_append, had1]
          simp only [countAddBreadcrumbs, List.countP_nil]
          rw [hpd1]
          omega
      · simp only [hbc]
        obtain ⟨-, -, -, -, -, hap2, had2⟩ :=
          addBc_spec (executeOp s).1
        constructor
        · rw [countApplyTransformer_append, hap1]
          omega
        · rw [countAddBreadcrumbs_append, had1]
          omega

/-- The `unwrap()` operation pays its transformer and emission events out of
the instance potentials. -/
theorem unwrapOp_pot (env : Env) (s : TryState) :
    countApplyTransformer (unwrapOp env s).2.1 +
          potApply (unwrapOp env s).1 ≤ potApply s ∧
      countAddBreadcrumbs (unwrapOp env s).2.1 +
          potAdd (unwrapOp env s).1 ≤ potAdd s := by
  obtain ⟨-, -, -, hap1, had1⟩ := executeOp_pot s
  obtain ⟨hpa1, hpd1⟩ := executeOp_pot_eq s
  rcases hr : (executeOp s).2.2 with v | e
  · have heq : executeOp s =
        ((executeOp s).1, (executeOp s).2.1, TryResult.success v) := by
      rw [← hr]
    have hun : unwrapOp env s =
        ((executeOp s).1, (executeOp s).2.1, .ok v) := by
      rw [unwrapOp, heq]
    rw [hun]
    dsimp only
    constructor
    · rw [hap1, hpa1]
      omega
    · rw [had1, hpd1]
      omega
  · have heq : executeOp s =
        ((executeOp s).1, (executeOp s).2.1, TryResult.failure e) := by
      rw [← hr]
    have hun : unwrapOp env s =
        (let step :=
          if msgTruthy (executeOp s).1.message then
            reportError (executeOp s).1 e
          else ((executeOp s).1, [])
        if msgTruthy step.1.message &&
            !(env.ignoreErrorTypes.contains e.name) then
          (step.1, (executeOp s).2.1 ++ step.2,
           .error (env.createWrappedError e (step.1.message.getD "")))
        else (step.1, (executeOp s).2.1 ++ step.2, .error e)) := by
      rw [unwrapOp, heq]
    rw [hun]
    by_cases hmt : msgTruthy (executeOp s).1.message = true
    · simp only [hmt, if_true]
      obtain ⟨-, -, -, -, -, hap2, had2, -⟩ :=
        reportError_spec (executeOp s).1 e
      by_cases hw : (msgTruthy (reportError (executeOp s).1 e).1.message &&
          !(env.ignoreErrorTypes.contains e.name)) = true
      · simp only [hw, if_true]
        constructor
        · rw [countApplyTransformer_append, hap1]
          omega
        · rw [countAddBreadcrumbs_append, had1]
          omega
      · simp only [hw, Bool.false_eq_true, if_false]
        constructor
        · rw [countApplyTransformer_append, hap1]
          omega
        · rw [countAddBreadcrumbs_append, had1]
          omega
    · simp only [hmt, Bool.false_eq_true, if_false, Bool.false_and]
      constructor
      · rw [countApplyTransformer_append, hap1]
        simp only [countApplyTransformer, List.countP_nil]
        rw [hpa1]
        omega
      · rw [countAddBreadcrumbs_append, had1]
        simp only [countAddBreadcrumbs, List.countP_nil]
        rw [hpd1]
        omega

/-- The `error()` operation pays for nothing. -/
theorem errorOp_pot (s : TryState) :
    countApplyTransformer (errorOp s).2.1 + potApply (errorOp s).1 ≤
        potApply s ∧
      countAddBreadcrumbs (errorOp s).2.1 + potAdd (errorOp s).1 ≤
        potAdd s := by
  obtain ⟨-, -, -, hap1, had1⟩ := executeOp_pot s
  obtain ⟨hpa1, hpd1⟩ := executeOp_pot_eq s
  have he : (errorOp s).1 = (executeOp s).1 := rfl
  have ht : (errorOp s).2.1 = (executeOp s).2.1 := rfl
  rw [he, ht, hap1, had1, hpa1, hpd1]
  omega

/-- The `result()` operation pays for nothing. -/
theorem resultOp_pot (s : TryState) :
    countApplyTransformer (resultOp s).2.1 + potApply (resultOp s).1 ≤
        potApply s ∧
      countAddBreadcrumbs (resultOp s).2.1 + potAdd (resultOp s).1 ≤
        potAdd s := by
  obtain ⟨-, -, -, hap1, had1⟩ := executeOp_pot s
  obtain ⟨hpa1, hpd1⟩ := executeOp_pot_eq s
  have he : (resultOp s).1 = (executeOp s).1 := rfl
  have ht : (resultOp s).2.1 = (executeOp s).2.1 := rfl
  rw [he, ht, hap1, had1, hpa1, hpd1]
  omega

/-- Any terminal operation pays its transformer and emission events out of
the instance potentials. -/
theorem runOp_pot (env : Env) (s : TryState) (op : TermOp) :
    countApplyTransformer (runOp env s op).2.1 +
          potApply (runOp env s op).1 ≤ potApply s ∧
      countAddBreadcrumbs (runOp env s op).2.1 +
          potAdd (runOp env s op).1 ≤ potAdd s := by
  cases op with
  | unwrap => exact unwrapOp_pot env s
  | value => exact valueOp_pot s
  | error => exact errorOp_pot s
  | result => exact resultOp_pot s
  | thenAwait => exact valueOp_pot s

/-- Any sequence of terminal operations pays all its transformer and
emission events out of the initial potentials. -/
theorem runOps_pot (env : Env) :
    ∀ (ops : List TermOp) (s : TryState),
      countApplyTransformer (runOps env s ops).2.1 +
            potApply (runOps env s ops).1 ≤ potApply s ∧
        countAddBreadcrumbs (runOps env s ops).2.1 +
            potAdd (runOps env s ops).1 ≤ potAdd s := by
  intro ops
  induction ops with
  | nil =>
    intro s
    constructor <;> simp [runOps, countApplyTransformer, countAddBreadcrumbs]
  | cons op rest ih =>
    intro s
    obtain ⟨h1, h2⟩ := runOp_pot env s op
    obtain ⟨g1, g2⟩ := ih (runOp env s op).1
    constructor
    · show countApplyTransformer
          ((runOp env s op).2.1 ++ (runOps env (runOp env s op).1 rest).2.1) +
          potApply (runOps env (runOp env s op).1 rest).1 ≤ potApply s
      rw [countApplyTransformer_append]
      omega
    · show countAddBreadcrumbs
          ((runOp env s op).2.1 ++ (runOps env (runOp env s op).1 rest).2.1) +
          potAdd (runOps env (runOp env s op).1 rest).1 ≤ potAdd s
      rw [countAddBreadcrumbs_append]
      omega

/-- The initial transformer potential of a fresh instance. -/
theorem potApply_toState (c : TrySetup) :
    potApply c.toState =
      (match c.breadcrumbConfig with
        | some cfg => transformerCallCount cfg c.args
        | none => 0) := by
  rcases hbc : c.breadcrumbConfig with _ | cfg <;>
    simp [potApply, TrySetup.toState, hbc]

/-- The initial emission potential of a fresh instance is at most one. -/
theorem potAdd_toState (c : TrySetup) : potAdd c.toState ≤ 1 := by
  rcases hbc : c.breadcrumbConfig with _ | cfg <;>
    simp [potAdd, TrySetup.toState, hbc]

/-! ### Locating the report call in a trace -/

/-- A trace without report events has no first report call. -/
theorem firstReportCall_none_of_countReport (tr : List Event)
    (h : countReport tr = 0) : firstReportCall tr = none := by
  induction tr with
  | nil => rfl
  | cons ev rest ih =>
    cases ev with
    | reportCall e cfg =>
      rw [countReport, List.countP_cons] at h
      simp at h
    | callFn => exact ih (by simpa [countReport, List.countP_cons] using h)
    | finallyCall =>
      exact ih (by simpa [countReport, List.countP_cons] using h)
    | applyTransformerCall =>
      exact ih (by simpa [countReport, List.countP_cons] using h)
    | addBreadcrumbsCall d f =>
      exact ih (by simpa [countReport, List.countP_cons] using h)

/-- Skipping a report-free prefix when locating the first report call. -/
theorem firstReportCall_append_none (a b : List Event)
    (h : firstReportCall a = none) :
    firstReportCall (a ++ b) = firstReportCall b := by
  induction a with
  | nil => rfl
  | cons ev rest ih =>
    cases ev with
    | reportCall e cfg => cases h
    | callFn => exact ih h
    | finallyCall => exact ih h
    | applyTransformerCall => exact ih h
    | addBreadcrumbsCall d f => exact ih h

/-! ### Fresh failing instances -/

/-- The outcome of a setup whose callable throws. -/
theorem outcome0_fail (c : TrySetup) (e : JSError)
    (h : c.fnOutcome = .error e) : outcome0 c = .failure e := by
  unfold outcome0
  rw [h]

/-- A nonempty message is truthy. -/
theorem msgTruthy_some (m : String) (h : m ≠ "") :
    msgTruthy (some m) = true := by
  simp [msgTruthy, beq_eq_false_iff_ne.2 h]

/-- On a fresh failing instance, `value()` resolves to
`defaultValue ?? undefined`. -/
theorem valueOp_toState_fail (c : TrySetup) (e : JSError)
    (h : c.fnOutcome = .error e) :
    (valueOp c.toState).2.2 = jsNullish c.defaultValue := by
  obtain ⟨-, h2, -⟩ := valueOp_reach c c.toState (reach_toState c)
  rw [h2, outcome0_fail c e h]

/-- Full behaviour of `unwrap()` on a fresh failing instance with a truthy
configured message: the reporter's report entry point is called exactly once,
receiving the original error together with the instance's message, tags and
function name, and the throw is the original error exactly when its name is
in the allow-list, the reporter-wrapped error otherwise. -/
theorem unwrapOp_toState_fail (env : Env) (c : TrySetup) (e : JSError)
    (m : String) (hfo : c.fnOutcome = .error e) (hm : c.message = some m)
    (hne : m ≠ "") :
    countReport (unwrapOp env c.toState).2.1 = 1 ∧
      (firstReportCall (unwrapOp env c.toState).2.1).map
          (fun p => (p.1, p.2.message, p.2.tags, p.2.functionName)) =
        some (e, some m, c.tags, c.fnName) ∧
      (env.ignoreErrorTypes.contains e.name = true →
        (unwrapOp env c.toState).2.2 = .error e) ∧
      (env.ignoreErrorTypes.contains e.name = false →
        (unwrapOp env c.toState).2.2 =
          .error (env.createWrappedError e m)) := by
  obtain ⟨hx, hcp1, hes1, hcr1, -, -, -, hrep1⟩ :=
    executeOp_reach c c.toState (reach_toState c)
  have heq : executeOp c.toState =
      ((executeOp c.toState).1, (executeOp c.toState).2.1, outcome0 c) := by
    rw [← hx]
  rw [outcome0_fail c e hfo] at heq
  have hmsg1 : (executeOp c.toState).1.message = some m :=
    (hcp1.2.2.2.1).trans hm
  have htags1 : (executeOp c.toState).1.tags = c.tags := hcp1.2.2.2.2.2.1
  have hfn1 : (executeOp c.toState).1.fnName = c.fnName := hcp1.2.1
  have hmtrue : msgTruthy (executeOp c.toState).1.message = true := by
    rw [hmsg1]
    exact msgTruthy_some m hne
  have hun : unwrapOp env c.toState =
      (let step :=
        if msgTruthy (executeOp c.toState).1.message then
          reportError (executeOp c.toState).1 e
        else ((executeOp c.toState).1, [])
      if msgTruthy step.1.message &&
          !(env.ignoreErrorTypes.contains e.name) then
        (step.1, (executeOp c.toState).2.1 ++ step.2,
         .error (env.createWrappedError e (step.1.message.getD "")))
      else (step.1, (executeOp c.toState).2.1 ++ step.2, .error e)) := by
    rw [unwrapOp, heq]
  obtain ⟨hcp2, -, -, -, hrep2, -, -, hfirst2⟩ :=
    reportError_spec (executeOp c.toState).1 e
  have hmsg2 : (reportError (executeOp c.toState).1 e).1.message = some m :=
    (hcp2.2.2.2.1).trans hmsg1
  have hmt2 : msgTruthy (reportError (executeOp c.toState).1 e).1.message =
      true := by
    rw [hmsg2]
    exact msgTruthy_some m hne
  have hcount : countReport
      ((executeOp c.toState).2.1 ++
        (reportError (executeOp c.toState).1 e).2) = 1 := by
    rw [countReport_append, hrep1, hrep2]
  have hfirst : (firstReportCall
      ((executeOp c.toState).2.1 ++
        (reportError (executeOp c.toState).1 e).2)).map
      (fun p => (p.1, p.2.message, p.2.tags, p.2.functionName)) =
      some (e, some m, c.tags, c.fnName) := by
    rw [firstReportCall_append_none _ _
      (firstReportCall_none_of_countReport _ hrep1)]
    rw [hfirst2, hmsg1, htags1, hfn1]
  by_cases hct : env.ignoreErrorTypes.contains e.name = true
  · have hres : unwrapOp env c.toState =
        ((reportError (executeOp c.toState).1 e).1,
         (executeOp c.toState).2.1 ++
           (reportError (executeOp c.toState).1 e).2,
         .error e) := by
      rw [hun]
      simp only [hmtrue, if_true, hmt2, hct, Bool.not_true, Bool.and_false,
        Bool.false_eq_true, if_false]
    rw [hres]
    refine ⟨hcount, hfirst, fun _ => rfl, fun hc => ?_⟩
    rw [hct] at hc
    cases hc
  · rw [Bool.not_eq_true] at hct
    have hres : unwrapOp env c.toState =
        ((reportError (executeOp c.toState).1 e).1,
         (executeOp c.toState).2.1 ++
           (reportError (executeOp c.toState).1 e).2,
         .error (env.createWrappedError e m)) := by
      rw [hun]
      simp only [hmtrue, if_true, hmt2, msgTruthy_some m hne, hct,
        Bool.not_false, Bool.and_true, hmsg2, Option.getD_some]
    rw [hres]
    refine ⟨hcount, hfirst, fun hc => ?_, fun _ => rfl⟩
    rw [hct] at hc
    cases hc

/-! ### Concrete fixtures used by counterexamples and witnesses -/

/-- A plain `Error('boom')`. -/
def errBoom : JSError := .mk "Error" "boom" "stack" none

/-- An error with a custom type name. -/
def errValidation : JSError := .mk "ValidationError" "invalid" "stack" none

/-- Environment with an empty throw-through list and the no-op reporter's
wrapped-error constructor. -/
def envNoop : Env := ⟨[], noopCreateWrappedError⟩

/-- Environment whose throw-through list contains `ValidationError`. -/
def envAllow : Env := ⟨["ValidationError"], noopCreateWrappedError⟩

/-- A transformer that always throws. -/
def tThrow : Transformer := fun _ => none

/-- A transformer that records its argument under the key `x`. -/
def tTag : Transformer := fun v => some [("x", v)]

/-! ### Claims -/

/-- C1: for every Try instance and every nonempty finite sequence of
terminal operations (`unwrap`, `value`, `error`, `result`, or implicit await
via `then`), in any combination and with any repetition, the wrapped
callable is invoked exactly once, and every terminal operation observes the
same cached outcome (each observation is the fixed pure function of the one
outcome given by `specObserve`). -/
theorem claim1_callable_invoked_exactly_once (env : Env) (c : TrySetup)
    (ops : List TermOp) (h : ops ≠ []) :
    countCallFn (runOps env c.toState ops).2.1 = 1 ∧
      (runOps env c.toState ops).2.2 = ops.map (specObserve env c) := by
  obtain ⟨-, h2, h3⟩ := runOps_spec env c ops c.toState (reach_toState c)
  refine ⟨?_, h2⟩
  rw [h3, if_pos ⟨rfl, h⟩]

/-- Witness for C1 at a concrete instance and operation sequence. -/
theorem claim1_witness :
    ([TermOp.value, TermOp.unwrap, TermOp.result] ≠ []) ∧
      countCallFn (runOps envNoop
          (TrySetup.toState
            ⟨.ok (.num 7), "add", [], none, none, [], none, false, false⟩)
          [TermOp.value, TermOp.unwrap, TermOp.result]).2.1 = 1 ∧
      (runOps envNoop
          (TrySetup.toState
            ⟨.ok (.num 7), "add", [], none, none, [], none, false, false⟩)
          [TermOp.value, TermOp.unwrap, TermOp.result]).2.2 =
        [TermOp.value, TermOp.unwrap, TermOp.result].map
          (specObserve envNoop
            ⟨.ok (.num 7), "add", [], none, none, [], none, false, false⟩) :=
  ⟨by decide,
   claim1_callable_invoked_exactly_once envNoop
     ⟨.ok (.num 7), "add", [], none, none, [], none, false, false⟩
     [TermOp.value, TermOp.unwrap, TermOp.result] (by decide)⟩

/-- C2: on a fresh instance whose callable fails with error `e` and whose
configured message is truthy, `unwrap()` reports exactly once (the report
entry point receiving the original error), and throws the original error
unchanged when `e.name` is in the process-wide throw-through allow-list,
while it throws the reporter-constructed wrapped error when `e.name` is not
in the allow-list. -/
theorem claim2_throw_through (env : Env) (c : TrySetup) (e : JSError)
    (m : String) (hfo : c.fnOutcome = .error e) (hm : c.message = some m)
    (hne : m ≠ "") :
    countReport (unwrapOp env c.toState).2.1 = 1 ∧
      (firstReportCall (unwrapOp env c.toState).2.1).map Prod.fst = some e ∧
      (env.ignoreErrorTypes.contains e.name = true →
        (unwrapOp env c.toState).2.2 = .error e) ∧
      (env.ignoreErrorTypes.contains e.name = false →
        (unwrapOp env c.toState).2.2 =
          .error (env.createWrappedError e m)) := by
  obtain ⟨h1, h2, h3, h4⟩ := unwrapOp_toState_fail env c e m hfo hm hne
  refine ⟨h1, ?_, h3, h4⟩
  rcases hfr : firstReportCall (unwrapOp env c.toState).2.1 with _ | p
  · rw [hfr] at h2
    cases h2
  · rw [hfr] at h2
    simp only [Option.map_some'] at h2 ⊢
    rw [Option.some_inj, Prod.mk.injEq] at h2
    rw [h2.1]

/-- Witness for C2: a `ValidationError` in the allow-list is rethrown as-is,
and the same error outside the allow-list is wrapped. -/
theorem claim2_witness :
    ((⟨.error errValidation, "f", [], some "failed", none, [], none, false,
        false⟩ : TrySetup).fnOutcome = .error errValidation) ∧
      ((⟨.error errValidation, "f", [], some "failed", none, [], none, false,
        false⟩ : TrySetup).message = some "failed") ∧
      ("failed" ≠ "") ∧
      countReport (unwrapOp envAllow
        (TrySetup.toState
          ⟨.error errValidation, "f", [], some "failed", none, [], none,
           false, false⟩)).2.1 = 1 ∧
      (envAllow.ignoreErrorTypes.contains errValidation.name = true →
        (unwrapOp envAllow
          (TrySetup.toState
            ⟨.error errValidation, "f", [], some "failed", none, [], none,
             false, false⟩)).2.2 = .error errValidation) :=
  ⟨rfl, rfl, by decide,
   (claim2_throw_through envAllow
     ⟨.error errValidation, "f", [], some "failed", none, [], none, false,
      false⟩ errValidation "failed" rfl rfl (by decide)).1,
   (claim2_throw_through envAllow
     ⟨.error errValidation, "f", [], some "failed", none, [], none, false,
      false⟩ errValidation "failed" rfl rfl (by decide)).2.2.1⟩

/-- C3: the claim says `value()` returns exactly the configured default `X`
for every `X`, but the code computes `defaultValue ?? undefined`, so for the
configured default `null` (which the doc comment of `Try.default` itself
promises back) a failing call returns `undefined` instead of `null`. -/
theorem claim3_default_null_returns_undefined :
    (valueOp (TrySetup.toState
        ⟨.error errBoom, "findUser", [], none, none, [], some .null, false,
         false⟩)).2.2 = .undefined ∧
      JSVal.null ≠ JSVal.undefined :=
  ⟨rfl, fun h => JSVal.noConfusion h⟩

/-- C4 counterexample: on a failing instance with message `'failed'` and
tags `{k: 'v'}`, the tag map passed to the Reporter's report entry point is
exactly `{k: 'v'}`, which differs from the merged-plus-library map the claim
requires. -/
theorem claim4_counterexample :
    (firstReportCall (unwrapOp envNoop
        (TrySetup.toState
          ⟨.error errBoom, "f", [], some "failed", none, [("k", "v")], none,
           false, false⟩)).2.1).map (fun p => p.2.tags) =
        some [("k", "v")] ∧
      ([("k", "v")] : TagMap) ≠
        recMerge [("k", "v")] [("library", "@power-rent/try-catch")] :=
  ⟨rfl, by decide⟩

/-- C4 amended: whenever a fresh failing instance with a truthy configured
message reports, the tag map passed to the Reporter's report entry point is
exactly the instance's merged tag map (no library tag added by the core);
the fixed `library: '@power-rent/try-catch'` tag is added by the Node
reporter adapter when it forwards the tags to the backend, so the backend
receives the user tags plus the library tag. -/
theorem claim4_amended (env : Env) (c : TrySetup) (e : JSError) (m : String)
    (hfo : c.fnOutcome = .error e) (hm : c.message = some m) (hne : m ≠ "") :
    (firstReportCall (unwrapOp env c.toState).2.1).map (fun p => p.2.tags) =
        some c.tags ∧
      ∀ (err : JSError) (rc : ErrorReportConfig),
        (nodeReporterReport err rc).tags =
          recMerge rc.tags [("library", "@power-rent/try-catch")] ∧
        ((nodeReporterReport err rc).tags).lookup "library" =
          some "@power-rent/try-catch" := by
  obtain ⟨-, h2, -, -⟩ := unwrapOp_toState_fail env c e m hfo hm hne
  constructor
  · rcases hfr : firstReportCall (unwrapOp env c.toState).2.1 with _ | p
    · rw [hfr] at h2
      cases h2
    · rw [hfr] at h2
      simp only [Option.map_some'] at h2 ⊢
      rw [Option.some_inj, Prod.mk.injEq, Prod.mk.injEq, Prod.mk.injEq] at h2
      rw [h2.2.2.1]
  · intro err rc
    refine ⟨rfl, ?_⟩
    show (recMerge rc.tags [("library", "@power-rent/try-catch")]).lookup
        "library" = some "@power-rent/try-catch"
    rw [recMerge_single, lookup_recSet, if_pos rfl]

/-- Witness for C4's amended theorem at a concrete failing instance. -/
theorem claim4_witness :
    ((⟨.error errBoom, "f", [], some "failed", none, [("k", "v")], none,
        false, false⟩ : TrySetup).fnOutcome = .error errBoom) ∧
      ("failed" ≠ "") ∧
      (firstReportCall (unwrapOp envNoop
          (TrySetup.toState
            ⟨.error errBoom, "f", [], some "failed", none, [("k", "v")],
             none, false, false⟩)).2.1).map (fun p => p.2.tags) =
        some [("k", "v")] :=
  ⟨rfl, by decide,
   (claim4_amended envNoop
     ⟨.error errBoom, "f", [], some "failed", none, [("k", "v")], none,
      false, false⟩ errBoom "failed" rfl rfl (by decide)).1⟩

/-- C5 counterexample: the all-string check requires a nonempty array, so an
empty array does not satisfy it and is not classified as a key-list. -/
theorem claim5_counterexample :
    isStringArray [] = false ∧ classify (.arr []) ≠ Shape.keyList :=
  ⟨rfl, by decide⟩

/-- C5 amended: an empty array fails the all-string check (which demands
`length > 0`) and is classified as a positional/extractor array; extraction
of an empty config of any recognized shape still returns the empty context
without raising. -/
theorem claim5_amended (args : List JSVal) (debug : Bool) :
    isStringArray [] = false ∧ classify (.arr []) = Shape.posArray ∧
      extract (.arr []) args debug = [] ∧
      extract (.objMap []) args debug = [] :=
  ⟨rfl, rfl, rfl, rfl⟩

/-- C6 counterexample: in the variadic-transformer shape, literally removing
the throwing entry shifts the positional alignment, so the other entry's
partial context changes (`x` is extracted from argument 1 instead of
argument 2). -/
theorem claim6_counterexample :
    extractParts (.arr [.fn tThrow, .fn tTag]) [.num 1, .num 2] false =
        [[], [("x", .num 2)]] ∧
      extractParts (.arr [.fn tTag]) [.num 1, .num 2] false =
        [[("x", .num 1)]] ∧
      ¬([("x", (.num 2 : JSVal))] = [("x", (.num 1 : JSVal))]) := by
  refine ⟨rfl, rfl, ?_⟩
  intro h
  simp at h

/-- C6 amended: if a configured transformer throws on the value it
receives -- whether supplied as a bare function entry of an array config, as
the `transform` field of a `{param, transform}` extractor entry, or as the
transformer value of an index-keyed map entry -- that step contributes the
empty partial context and the throw never propagates out of extraction or
out of `value()`; every other entry's partial context is unchanged when the
throwing entry is replaced by an entry of the same classification kind
(instead of removed, which would shift positional alignment); and the
extraction equals the merge of the per-entry partials. -/
theorem claim6_amended :
    (∀ (entries : List ConfigEntry) (args : List JSVal) (debug : Bool)
        (j i : Nat) (ej e' : ConfigEntry) (t : Transformer),
        entries.get? j = some ej →
        entryTransformer ej = some t →
        t (entryArg args j ej) = none →
        isFnEntry e' = isFnEntry ej →
        isStrEntry e' = isStrEntry ej →
        i ≠ j →
        (extractParts (.arr entries) args debug).get? j = some [] ∧
          (extractParts (.arr (entries.set j e')) args debug).get? i =
            (extractParts (.arr entries) args debug).get? i ∧
          extract (.arr entries) args debug =
            mergeAll (extractParts (.arr entries) args debug)) ∧
      (∀ (m : List (Int × ObjMapVal)) (args : List JSVal) (debug : Bool)
        (j i : Nat) (idx : Int) (t : Transformer) (p' : Int × ObjMapVal),
        m.get? j = some (idx, .transform t) →
        t (argAtI args idx) = none →
        i ≠ j →
        (extractParts (.objMap m) args debug).get? j = some [] ∧
          (extractParts (.objMap (m.set j p')) args debug).get? i =
            (extractParts (.objMap m) args debug).get? i ∧
          extract (.objMap m) args debug =
            mergeAll (extractParts (.objMap m) args debug)) ∧
      (∀ (c : TrySetup) (cfg : BreadcrumbOptions) (e : JSError),
        c.breadcrumbConfig = some cfg →
        c.fnOutcome = .error e →
        (valueOp c.toState).2.2 = jsNullish c.defaultValue) := by
  refine ⟨?_, ?_, fun c cfg e _ hf => valueOp_toState_fail c e hf⟩
  · intro entries args debug j i ej e' t hj ht h2 hk1 hk2 h3
    have hstrj : isStrEntry ej = false :=
      isStrEntry_false_of_entryTransformer ej t ht
    have hstr : isStringArray entries = false := by
      rw [isStringArray_eq,
        all_eq_false_of_get? isStrEntry entries j ej hj hstrj,
        Bool.and_false]
    obtain ⟨hstr2, htr2⟩ := classification_set_congr entries j ej e' hj hk1 hk2
    refine ⟨?_, ?_, extract_arr_eq_mergeParts entries args debug hstr⟩
    · rw [extractParts]
      rw [hstr]
      by_cases htr : isTransformerArray entries = true
      · rw [htr]
        simp only [Bool.false_eq_true, if_false, if_true]
        have hfnej : isFnEntry ej = true := by
          rw [isTransformerArray_eq, Bool.and_eq_true] at htr
          exact List.all_eq_true.1 htr.2 ej (List.get?_mem hj)
        cases ej with
        | str s => simp [isFnEntry] at hfnej
        | strList ks => simp [isFnEntry] at hfnej
        | extractor ex => simp [isFnEntry] at hfnej
        | fn t0 =>
          have ht0 : t0 = t := by
            simp only [entryTransformer, Option.some_inj] at ht
            exact ht
          subst ht0
          rw [variadicPartsGo_get?, hj]
          by_cases hjlen : j < args.length
          · simp only [Option.map_some', variadicEntryPart, Nat.zero_add]
            rw [if_pos hjlen, TransformerRegistry.apply]
            have h2' : t0 (argAt args j) = none := h2
            rw [h2']
            rfl
          · simp only [Option.map_some', variadicEntryPart, Nat.zero_add]
            rw [if_neg hjlen]
      · rw [Bool.not_eq_true] at htr
        rw [htr]
        simp only [Bool.false_eq_true, if_false]
        rw [arrayPartsGo_get?, hj]
        cases ej with
        | str s => simp [entryTransformer] at ht
        | strList ks => simp [entryTransformer] at ht
        | fn t0 => rfl
        | extractor ex =>
          cases ex with
          | keys p ks => simp [entryTransformer] at ht
          | asKind p k => simp [entryTransformer] at ht
          | transform p t0 =>
            have ht0 : t0 = t := by
              simp only [entryTransformer, Option.some_inj] at ht
              exact ht
            subst ht0
            simp only [Option.map_some', arrayEntryPart, Nat.zero_add]
            rw [extractFromParameter]
            have h2' : t0 (argAtI args p) = none := h2
            by_cases hv : TransformerRegistry.validateParameterIndex p
                args.length = true
            · simp only [Extractor.param, hv, Bool.not_true,
                Bool.false_eq_true, if_false, TransformerRegistry.apply, h2']
              rfl
            · rw [Bool.not_eq_true] at hv
              simp only [Extractor.param, hv, Bool.not_false, if_true]
    · rw [extractParts, extractParts]
      rw [hstr2, htr2, hstr]
      by_cases htr : isTransformerArray entries = true
      · rw [htr]
        simp only [Bool.false_eq_true, if_false, if_true]
        rw [variadicPartsGo_get?, variadicPartsGo_get?,
          get?_set_ne entries j i e' (Ne.symm h3)]
      · rw [Bool.not_eq_true] at htr
        rw [htr]
        simp only [Bool.false_eq_true, if_false]
        rw [arrayPartsGo_get?, arrayPartsGo_get?,
          get?_set_ne entries j i e' (Ne.symm h3)]
  · intro m args debug j i idx t p' hj h2 h3
    refine ⟨?_, ?_, extract_objMap_eq_mergeParts m args debug⟩
    · show ((m.map (objMapPart args debug)).get? j) = some []
      rw [List.get?_map, hj]
      simp only [Option.map_some', objMapPart]
      by_cases hv : TransformerRegistry.validateParameterIndex idx
          args.length = true
      · simp only [hv, if_true, extractFromParameterConfig,
          TransformerRegistry.apply, h2]
        rfl
      · rw [Bool.not_eq_true] at hv
        simp only [hv, Bool.false_eq_true, if_false]
    · show ((m.set j p').map (objMapPart args debug)).get? i =
        ((m.map (objMapPart args debug)).get? i)
      rw [List.get?_map, List.get?_map, get?_set_ne m j i p' (Ne.symm h3)]

/-- Witness for C6's amended theorem: the spec's own isolation example
`[{param:0, as:'value'}, {param:1, transform: throwing}]`, and an
index-keyed map with a throwing transformer at key 0. -/
theorem claim6_witness :
    (([ConfigEntry.extractor (.asKind 0 .value),
        ConfigEntry.extractor (.transform 1 tThrow)].get? 1 =
        some (.extractor (.transform 1 tThrow))) ∧
      entryTransformer (.extractor (.transform 1 tThrow)) = some tThrow ∧
      tThrow (entryArg [(.num 5 : JSVal), .num 6] 1
        (.extractor (.transform 1 tThrow))) = none ∧
      (0 : Nat) ≠ 1) ∧
      (extractParts (.arr [.extractor (.asKind 0 .value),
          .extractor (.transform 1 tThrow)]) [.num 5, .num 6] false).get? 1 =
        some [] ∧
      (extractParts (.objMap [((0 : Int), .transform tThrow),
          (1, .keysList ["a"])]) [.num 5] false).get? 0 = some [] ∧
      extract (.arr [.extractor (.asKind 0 .value),
          .extractor (.transform 1 tThrow)]) [.num 5, .num 6] false =
        [("param0_value", .num 5)] :=
  ⟨⟨rfl, rfl, rfl, by decide⟩,
   (claim6_amended.1 [.extractor (.asKind 0 .value),
      .extractor (.transform 1 tThrow)] [.num 5, .num 6] false 1 0
      (.extractor (.transform 1 tThrow)) (.extractor (.transform 1 tTag))
      tThrow rfl rfl rfl rfl rfl (by decide)).1,
   (claim6_amended.2.1 [((0 : Int), .transform tThrow), (1, .keysList ["a"])]
      [.num 5] false 0 1 0 tThrow (0, .transform tTag) rfl rfl
      (by decide)).1,
   rfl⟩

/-- C7: for every Try instance, across any sequence of terminal operations
the transformer invocations stay within a single extraction's worth (the
computed context is cached, so the configured transformers run at most once
per instance) and the Reporter's breadcrumb-emission entry point is called
at most once per instance. -/
theorem claim7_breadcrumbs_once (env : Env) (c : TrySetup)
    (ops : List TermOp) :
    countApplyTransformer (runOps env c.toState ops).2.1 ≤
        (match c.breadcrumbConfig with
          | some cfg => transformerCallCount cfg c.args
          | none => 0) ∧
      countAddBreadcrumbs (runOps env c.toState ops).2.1 ≤ 1 := by
  obtain ⟨h1, h2⟩ := runOps_pot env ops c.toState
  have hp := potApply_toState c
  have hq := potAdd_toState c
  constructor
  · rw [hp] at h1
    omega
  · omega

/-- C8: key-list extraction copies exactly the listed keys whose looked-up
value is not `undefined`: a key reading `undefined` is absent from the
result, while a key explicitly bound to `null` is kept with value `null`. -/
theorem claim8_keylist_undefined_filtering (fields : List (String × JSVal))
    (keys : List String) (k : String) :
    ((extractFromKeys (.obj fields) keys).lookup k =
        (if k ∈ keys ∧ isUndefined (getProp (.obj fields) k) = false then
          some (getProp (.obj fields) k)
        else none)) ∧
      (k ∈ keys → getProp (.obj fields) k = .null →
        (extractFromKeys (.obj fields) keys).lookup k = some .null) := by
  refine ⟨lookup_extractFromKeys (.obj fields) keys k, fun hmem hnull => ?_⟩
  rw [lookup_extractFromKeys, if_pos ⟨hmem, by rw [hnull]; rfl⟩, hnull]

/-- Witness for C8: extracting `['a','b','c']` from `{a:'x', c:null}` keeps
`a` and `c` (with `null`) and omits `b`. -/
theorem claim8_witness :
    (extractFromKeys (.obj [("a", .str "x"), ("c", .null)])
        ["a", "b", "c"]).lookup "b" =
      (if "b" ∈ ["a", "b", "c"] ∧
          isUndefined (getProp (.obj [("a", .str "x"), ("c", .null)]) "b") =
            false then
        some (getProp (.obj [("a", .str "x"), ("c", .null)]) "b")
      else none) :=
  (claim8_keylist_undefined_filtering [("a", .str "x"), ("c", .null)]
    ["a", "b", "c"] "b").1

/-- C9: awaiting the instance directly (its thenable behaviour) is
observably equivalent to calling `value()`: the rejection callback is
irrelevant (it never rejects), resolving with identity yields exactly the
`value()` result including its state and event trace, and on call failure
the resolution is the configured default or `undefined`. -/
theorem claim9_then_equiv_value :
    (∀ (s : TryState) (α : Type) (f : JSVal → α) (g g' : JSError → α),
        thenOp s f g = thenOp s f g') ∧
      (∀ (s : TryState) (g : JSError → JSVal),
        thenOp s (fun v => v) g = valueOp s) ∧
      (∀ (c : TrySetup) (e : JSError) (g : JSError → JSVal),
        c.fnOutcome = .error e →
        (thenOp c.toState (fun v => v) g).2.2 = jsNullish c.defaultValue) := by
  refine ⟨fun s α f g g' => rfl, fun s g => rfl, fun c e g hf => ?_⟩
  show (valueOp c.toState).2.2 = _
  exact valueOp_toState_fail c e hf

/-- Witness for C9 at a concrete failing instance with a default. -/
theorem claim9_witness :
    ((⟨.error errBoom, "f", [], none, none, [], some (.str "fallback"),
        false, false⟩ : TrySetup).fnOutcome = .error errBoom) ∧
      (thenOp (TrySetup.toState
          ⟨.error errBoom, "f", [], none, none, [], some (.str "fallback"),
           false, false⟩) (fun v => v) (fun _ => JSVal.undefined)).2.2 =
        jsNullish (some (.str "fallback")) :=
  ⟨rfl,
   claim9_then_equiv_value.2.2
     ⟨.error errBoom, "f", [], none, none, [], some (.str "fallback"),
      false, false⟩ errBoom (fun _ => JSVal.undefined) rfl⟩

/-- C10: in the positional/extractor array syntax, a trailing string entry
whose index is beyond the argument list is not skipped: it binds that key to
`undefined`; an extractor-object entry with an out-of-range `param` index
contributes nothing. -/
theorem claim10_positional_string_vs_extractor (pre : List ConfigEntry)
    (s : String) (ex : Extractor) (args : List JSVal) (debug : Bool)
    (h1 : args.length ≤ pre.length)
    (h2 : TransformerRegistry.validateParameterIndex ex.param args.length =
      false) :
    extractFromArray (pre ++ [.str s]) args debug =
        recSet (extractFromArray pre args debug) s .undefined ∧
      (extractFromArray (pre ++ [.str s]) args debug).lookup s =
        some .undefined ∧
      extractFromArray (pre ++ [.extractor ex]) args debug =
        extractFromArray pre args debug := by
  have hnoarg : argAt args pre.length = .undefined := by
    unfold argAt
    rw [List.get?_eq_none.2 h1]
    rfl
  have hA : extractFromArray (pre ++ [.str s]) args debug =
      recSet (extractFromArray pre args debug) s .undefined := by
    rw [extractFromArray, extractFromArrayGo_append args debug pre [.str s]]
    show recSet (extractFromArrayGo args debug 0 [] pre) s
        (argAt args (0 + pre.length)) = _
    rw [Nat.zero_add, hnoarg]
    rfl
  refine ⟨hA, ?_, ?_⟩
  · rw [hA, lookup_recSet, if_pos rfl]
  · rw [extractFromArray,
      extractFromArrayGo_append args debug pre [.extractor ex]]
    show recMerge (extractFromArrayGo args debug 0 [] pre)
        (extractFromParameter ex args debug) = _
    rw [extractFromParameter]
    rw [h2]
    rfl

/-- Witness for C10 with an empty prefix, no arguments, and an extractor
whose `param` is out of range. -/
theorem claim10_witness :
    (([] : List JSVal).length ≤ ([] : List ConfigEntry).length) ∧
      (TransformerRegistry.validateParameterIndex
        (Extractor.asKind 5 .value).param ([] : List JSVal).length = false) ∧
      (extractFromArray [.str "k"] [] false).lookup "k" = some .undefined :=
  ⟨by decide, by decide,
   (claim10_positional_string_vs_extractor [] "k" (.asKind 5 .value) [] false
     (by decide) (by decide)).2.1⟩

end TryCatch
